import Mathlib

/-! logdna-agent: file discovery sync, journald reassembly, line normalisation, tail reader.

A shallow embedding of `lib/file-utilities.js` and
`lib/tailreadstream/tailreadstream.js`.

* JavaScript strings are sequences of UTF-16 code units; a `Char` of a `Str`
  stands for one code unit, so `List.length` is the `length` property.
* Event handlers become pure functions from a state to a new state and the list
  of effects they cause, in program order.
* Host builtins the repository does not define (`JSON.parse`,
  `JSON.stringify`, `Date.now`) are parameters of the functions that call them.
* Numbers are exact rationals. Where the result of a numeric builtin depends on
  the rounding of doubles it is taken from a parameter (`Host`).
-/

namespace LogdnaAgent

/-- A JavaScript string, one `Char` per UTF-16 code unit. -/
abbrev Str := List Char

/-! ## Array helpers used by `streamAllLogs` -/

/-- `Array.prototype.indexOf`: position of the first element strictly equal to
`x`, and `-1` when there is none. -/
def indexOf {α : Type} [DecidableEq α] : List α → α → Int
  | [], _ => -1
  | y :: ys, x =>
    if y = x then 0
    else if indexOf ys x < 0 then -1 else indexOf ys x + 1

/-- `Array.prototype.filter` with the two-argument callback `(element, index)`;
`i` is the index of the head of the list. -/
def filterIdxFrom {α : Type} (p : α → Nat → Bool) : Nat → List α → List α
  | _, [] => []
  | i, x :: xs => if p x i then x :: filterIdxFrom p (i + 1) xs else filterIdxFrom p (i + 1) xs

/-- `xs.filter((element, index) => ...)`. -/
def filterIdx {α : Type} (p : α → Nat → Bool) (xs : List α) : List α :=
  filterIdxFrom p 0 xs

/-! ## `streamAllLogs`: one discovery sync -/

/-- What `getFiles` hands to its callback for one configured directory:
`callback(err)` or `callback(null, logfiles)`. -/
inductive Discovery where
  | error
  | ok (logfiles : List Str)
  deriving DecidableEq, Repr

/-- Body of the `getFiles` callback inside `async.each`: the new value of
`newfiles` after one directory has reported. `files` is the managed list. -/
def scanDir (files : List Str) (newfiles : List Str) : Discovery → List Str
  | .error => newfiles
  | .ok logfiles =>
    if logfiles.length > 0 then
      -- var diff = logfiles.filter(element => files.indexOf(element) < 0);
      let diff := logfiles.filter (fun element => decide (indexOf files element < 0))
      -- newfiles = newfiles.concat(diff);
      let newfiles1 := newfiles ++ diff
      -- newfiles = newfiles.filter((element, index) => newfiles.indexOf(element) === index);
      filterIdx (fun element index => decide (indexOf newfiles1 element = (index : Int))) newfiles1
    else newfiles

/-- Result of one `streamAllLogs` sync. -/
structure SyncResult where
  /-- The managed list after `files = files.concat(newfiles)`. -/
  files : List Str
  /-- The argument of the `streamFiles(config, newfiles, ...)` call. -/
  started : List Str
  deriving DecidableEq, Repr

/-- The file part of `streamAllLogs`: `newfiles` starts empty, every directory's
callback runs once (`results` lists them in completion order), then the final
callback of `async.each` extends `files` and calls `streamFiles`. -/
def streamAllLogs (files : List Str) (results : List Discovery) : SyncResult :=
  let newfiles := results.foldl (scanDir files) []
  { files := files ++ newfiles, started := newfiles }

/-- The paths reported by the directories whose discovery succeeded. -/
def discovered : List Discovery → List Str
  | [] => []
  | .error :: rest => discovered rest
  | .ok logfiles :: rest => logfiles ++ discovered rest

/-! ## Strings: trimming, splitting, the partial buffer -/

/-- The characters `String.prototype.trim` strips: ECMAScript WhiteSpace and
LineTerminator code points. -/
def isWhiteSpace (c : Char) : Bool :=
  c.toNat = 0x09 || c.toNat = 0x0A || c.toNat = 0x0B || c.toNat = 0x0C ||
  c.toNat = 0x0D || c.toNat = 0x20 || c.toNat = 0xA0 || c.toNat = 0x1680 ||
  (0x2000 ≤ c.toNat && c.toNat ≤ 0x200A) || c.toNat = 0x2028 || c.toNat = 0x2029 ||
  c.toNat = 0x202F || c.toNat = 0x205F || c.toNat = 0x3000 || c.toNat = 0xFEFF

/-- `String.prototype.trim`. -/
def trim (s : Str) : Str :=
  (s.dropWhile isWhiteSpace).rdropWhile isWhiteSpace

/-- `s.split('\n')`: the pieces between line feeds; the empty string gives one
empty piece. -/
def splitLines : Str → List Str
  | [] => [[]]
  | c :: cs =>
    if c = '\n' then [] :: splitLines cs
    else
      match splitLines cs with
      | [] => [[c]]
      | l :: ls => (c :: l) :: ls

/-- `s.substring(0, 1)`. -/
def firstChar (s : Str) : Str := s.take 1

/-- `s.substring(s.length - 1)` (a negative start counts as 0). -/
def lastChar (s : Str) : Str := s.drop (s.length - 1)

/-- The variable `lastchunk`: `none` is `undefined` or `null`. -/
abbrev LastChunk := Option Str

/-- Truthiness of `lastchunk`: `undefined`, `null` and `''` are falsy. -/
def LastChunk.truthy : LastChunk → Bool
  | none => false
  | some s => !s.isEmpty

/-- The string `lastchunk` stands for in a concatenation that the code only
reaches when it is truthy. -/
def LastChunk.text : LastChunk → Str
  | none => []
  | some s => s

/-- The maximum size of a partial record that still accepts a continuation. -/
def maxPartial : Nat := 32768

/-! ## `parseLine` -/

/-- A value produced by `JSON.parse`. A number is the value of the double, as a
rational; `props` lists an object's own properties in property order. -/
inductive Json where
  | null
  | bool (b : Bool)
  | num (q : ℚ)
  | str (s : Str)
  | arr (items : List Json)
  | obj (props : List (Str × Json))

instance : Inhabited Json := ⟨.null⟩

/-- The abstract operation ToBoolean on a parsed value. -/
def Json.truthy : Json → Bool
  | .null => false
  | .bool b => b
  | .num q => decide (q ≠ 0)
  | .str s => !s.isEmpty
  | .arr _ => true
  | .obj _ => true

/-- Read of an own property, `obj.key`; `none` is `undefined`. None of the
keys read by this program is defined on `Object.prototype`. -/
def getProp (props : List (Str × Json)) (key : Str) : Option Json :=
  match props.find? (fun p => decide (p.1 = key)) with
  | some p => some p.2
  | none => none

/-- Assignment `obj.key = v`: an existing property keeps its place, a new one
goes last. -/
def setProp (props : List (Str × Json)) (key : Str) (v : Json) : List (Str × Json) :=
  if props.any (fun p => decide (p.1 = key)) then
    props.map (fun p => if p.1 = key then (key, v) else p)
  else props ++ [(key, v)]

/-- The statement `delete obj.key`. -/
def deleteProp (props : List (Str × Json)) (key : Str) : List (Str × Json) :=
  props.filter (fun p => !decide (p.1 = key))

mutual
/-- Whether converting a parsed value to a primitive throws a `TypeError`.
Nothing in a parsed value is callable, so an object with an own `toString`
property has no usable conversion method (`Object.prototype.valueOf` returns
the object itself), and `Array.prototype.toString` joins the conversions of the
elements. -/
def toPrimitiveThrows : Json → Bool
  | .obj props => props.any (fun p => decide (p.1 = "toString".toList))
  | .arr items => anyToPrimitiveThrows items
  | _ => false
/-- Whether the conversion of some element throws. -/
def anyToPrimitiveThrows : List Json → Bool
  | [] => false
  | x :: xs => toPrimitiveThrows x || anyToPrimitiveThrows xs
end

/-- The value of the variable `t`. -/
inductive Timestamp where
  /-- The number returned by `Date.now()`. -/
  | now (ms : Int)
  /-- The object `new Date(arg)`. -/
  | date (arg : Json)

/-- The object `{t, l: line}` returned by `parseLine`. -/
structure LineRecord where
  t : Timestamp
  l : Str

/-- The `switch (lineObj.level)`: the label assigned by the matching `case`
(strict equality with a number), `none` for `default`. -/
def levelLabel : Json → Option Str
  | .num q =>
    if q = 10 then some "TRACE".toList
    else if q = 20 then some "DEBUG".toList
    else if q = 30 then some "INFO".toList
    else if q = 40 then some "WARN".toList
    else if q = 50 then some "ERROR".toList
    else if q = 60 then some "FATAL".toList
    else none
  | _ => none

/-- The block `if (lineObj.msg) { lineObj.message = lineObj.msg; delete lineObj.msg; }`. -/
def renameMsg (props : List (Str × Json)) : List (Str × Json) :=
  match getProp props "msg".toList with
  | some msg =>
    if msg.truthy then deleteProp (setProp props "message".toList msg) "msg".toList
    else props
  | none => props

/-- The block `if (lineObj.level) { switch (lineObj.level) ... }`. -/
def translateLevel (props : List (Str × Json)) : List (Str × Json) :=
  match getProp props "level".toList with
  | some level =>
    if level.truthy then
      match levelLabel level with
      | some label => setProp props "level".toList (.str label)
      | none => props
    else props
  | none => props

/-- The function `parseLine(line)`. `jsonParse` is `JSON.parse` (`none` when it
throws), `jsonStringify` is `JSON.stringify`, `now` the value of `Date.now()`.
Every exit of the `try` block by an exception ends in the `catch`, which
changes nothing. -/
def parseLine (jsonParse : Str → Option Json) (jsonStringify : Json → Str) (now : Int)
    (line : Str) : LineRecord :=
  -- t = Date.now();
  let t := Timestamp.now now
  match jsonParse line with
  | none => { t := t, l := line }
  | some .null =>
    -- `lineObj.time` on `null` throws
    { t := t, l := line }
  | some (.obj props) =>
    match getProp props "time".toList with
    | some time =>
      if time.truthy then
        if toPrimitiveThrows time then
          -- `new Date(lineObj.time)` throws
          { t := t, l := line }
        else
          { t := .date time, l := jsonStringify (.obj (translateLevel (renameMsg props))) }
      else { t := t, l := jsonStringify (.obj (translateLevel (renameMsg props))) }
    | none => { t := t, l := jsonStringify (.obj (translateLevel (renameMsg props))) }
  | some v =>
    -- booleans, numbers, strings and arrays have none of the three properties
    { t := t, l := jsonStringify v }

/-- The values of `JSON.parse` on the lines used in the examples of this file;
every other text is treated as invalid. -/
def exampleParse (line : Str) : Option Json :=
  if line = "\x7b\"time\":\x7b\"toString\":null\x7d,\"level\":10\x7d".toList then
    some (.obj [("time".toList, .obj [("toString".toList, .null)]), ("level".toList, .num 10)])
  else if line = "\x7b\"level\":30,\"msg\":\"hi\"\x7d".toList then
    some (.obj [("level".toList, .num 30), ("msg".toList, .str "hi".toList)])
  else none

/-- The values of `JSON.stringify` on the objects used in the examples of this
file. -/
def exampleStringify : Json → Str
  | .obj [(k1, .str v1), (k2, .str v2)] =>
    if k1 = "level".toList ∧ v1 = "INFO".toList ∧ k2 = "message".toList ∧ v2 = "hi".toList then
      "\x7b\"level\":\"INFO\",\"message\":\"hi\"\x7d".toList
    else []
  | .obj [(k1, .obj [(k2, .null)]), (k3, .str v3)] =>
    if k1 = "time".toList ∧ k2 = "toString".toList ∧ k3 = "level".toList ∧
        v3 = "TRACE".toList then
      "\x7b\"time\":\x7b\"toString\":null\x7d,\"level\":\"TRACE\"\x7d".toList
    else []
  | _ => []


/-! ## JavaScript numbers and the strings that write them -/

/-- A JavaScript number: `NaN`, an infinity, or a finite value given as a
rational. -/
inductive JsNumber where
  | nan
  | infinity (negative : Bool)
  | finite (q : ℚ)
  deriving DecidableEq

/-- The comparison `x < y` of two numbers; `none` is the undefined result of a
comparison with `NaN`. -/
def JsNumber.lessThan : JsNumber → JsNumber → Option Bool
  | .nan, _ => none
  | _, .nan => none
  | .finite a, .finite b => some (decide (a < b))
  | .infinity n, .infinity m => some (n && !m)
  | .infinity n, .finite _ => some n
  | .finite _, .infinity m => some (!m)

/-- The expression `x > y` on numbers. -/
def JsNumber.gt (x y : JsNumber) : Bool :=
  match JsNumber.lessThan y x with
  | some b => b
  | none => false

/-- The expression `x >= y` on numbers. -/
def JsNumber.ge (x y : JsNumber) : Bool :=
  match JsNumber.lessThan x y with
  | some b => !b
  | none => false

/-- The comparison `s < t` of two strings: by code units, a proper initial part
of a string is below it. -/
def stringLessThan : Str → Str → Bool
  | _, [] => false
  | [], _ :: _ => true
  | a :: s, b :: t =>
    if a.toNat < b.toNat then true
    else if b.toNat < a.toNat then false
    else stringLessThan s t

/-- The value of `c` as a digit: `0`-`9`, then `a`-`z` or `A`-`Z` for 10-35. -/
def digitValue (c : Char) : Option Nat :=
  if 48 ≤ c.toNat ∧ c.toNat ≤ 57 then some (c.toNat - 48)
  else if 97 ≤ c.toNat ∧ c.toNat ≤ 122 then some (c.toNat - 97 + 10)
  else if 65 ≤ c.toNat ∧ c.toNat ≤ 90 then some (c.toNat - 65 + 10)
  else none

/-- The digits of the longest initial part of `s` made of digits of the radix. -/
def leadingDigits (radix : Nat) : Str → List Nat
  | [] => []
  | c :: cs =>
    match digitValue c with
    | some d => if d < radix then d :: leadingDigits radix cs else []
    | none => []

/-- The integer written by the digits `ds` in the radix. -/
def digitsValue (radix : Nat) (ds : List Nat) : Nat :=
  ds.foldl (fun acc d => acc * radix + d) 0

/-- Whether `s` is a non-empty string of decimal digits. -/
def isDecimal (s : Str) : Bool :=
  !s.isEmpty && s.all (fun c => decide (48 ≤ c.toNat ∧ c.toNat ≤ 57))

/-- The integer written by the leading decimal digits of `s`. -/
def decimalValue (s : Str) : Nat :=
  digitsValue 10 (leadingDigits 10 s)

/-- A sign at the start of a numeric string: whether the string starts with
`-`, and the string after a leading `-` or `+`. -/
def stripSign (s : Str) : Bool × Str :=
  match s with
  | '-' :: rest => (true, rest)
  | '+' :: rest => (false, rest)
  | _ => (false, s)

/-- The digits of `s` when `s` is a non-empty string of digits of the radix. -/
def allDigits (radix : Nat) (s : Str) : Option (List Nat) :=
  if s ≠ [] ∧ (leadingDigits radix s).length = s.length then some (leadingDigits radix s)
  else none

/-- The exponent of a decimal literal, from the text after its `e` or `E`: an
optional sign and at least one decimal digit. -/
def exponentPart (s : Str) : Option Int :=
  match allDigits 10 (stripSign s).2 with
  | some ds =>
    some (if (stripSign s).1 then -(digitsValue 10 ds : Int) else (digitsValue 10 ds : Int))
  | none => none

/-- Whether `c` is one of `0`-`9`. -/
def isDecimalDigit (c : Char) : Bool :=
  decide (48 ≤ c.toNat ∧ c.toNat ≤ 57)

/-- The value of an unsigned decimal literal (`12`, `1.5`, `.5`, `1.`, each
with an optional exponent); `none` when `s` is not one. -/
def unsignedDecimalLiteral (s : Str) : Option ℚ :=
  let whole := s.takeWhile isDecimalDigit
  let rest := s.dropWhile isDecimalDigit
  let fraction : Str × Str :=
    match rest with
    | '.' :: r => (r.takeWhile isDecimalDigit, r.dropWhile isDecimalDigit)
    | _ => ([], rest)
  if whole = [] ∧ fraction.1 = [] then none
  else
    let mantissa : ℚ := (decimalValue (whole ++ fraction.1) : ℚ) / 10 ^ fraction.1.length
    match fraction.2 with
    | [] => some mantissa
    | c :: r =>
      if c = 'e' ∨ c = 'E' then
        match exponentPart r with
        | some e => some (mantissa * 10 ^ e)
        | none => none
      else none

/-- The value of the digits after `0x`, `0o` or `0b`; no digit, or another
character, gives `NaN`. -/
def radixLiteral (radix : Nat) (s : Str) : JsNumber :=
  match allDigits radix s with
  | some ds => .finite (digitsValue radix ds)
  | none => .nan

/-- The conversion of a string to a number (as by a comparison with a number):
white space around the text is dropped; the empty text is 0; then a hexadecimal,
octal or binary literal, `Infinity` with an optional sign, or a decimal literal
with an optional sign; any other text is `NaN`. The value is the number
written, not rounded to a double. -/
def stringToNumber (s : Str) : JsNumber :=
  match trim s with
  | [] => .finite 0
  | '0' :: 'x' :: r => radixLiteral 16 r
  | '0' :: 'X' :: r => radixLiteral 16 r
  | '0' :: 'o' :: r => radixLiteral 8 r
  | '0' :: 'O' :: r => radixLiteral 8 r
  | '0' :: 'b' :: r => radixLiteral 2 r
  | '0' :: 'B' :: r => radixLiteral 2 r
  | t =>
    if (stripSign t).2 = "Infinity".toList then .infinity (stripSign t).1
    else
      match unsignedDecimalLiteral (stripSign t).2 with
      | some q => .finite (if (stripSign t).1 then -q else q)
      | none => .nan

/-- A value of `_interval`, `_timeout` or `_idle`: a number, or a string when it
was taken from an environment variable or concatenated with one. -/
inductive Scalar where
  | num (n : Nat)
  | str (s : Str)
  deriving DecidableEq, Repr

instance (n : Nat) : OfNat Scalar n := ⟨.num n⟩

/-- The conversion of a value to a string; a number is written in plain
decimal, as every integer below 10^21 is. -/
def Scalar.toStr : Scalar → Str
  | .num n => Nat.toDigits 10 n
  | .str s => s

/-- The conversion of a value to a number. -/
def Scalar.toNumber : Scalar → JsNumber
  | .num n => .finite n
  | .str s => stringToNumber s

/-- The expression `a + b` (as in `a += b`): the sum of two numbers, and the
concatenation of the two as strings when one of them is a string. -/
def Scalar.add : Scalar → Scalar → Scalar
  | .num a, .num b => .num (a + b)
  | a, b => .str (a.toStr ++ b.toStr)

/-- The expression `a >= b`: two strings are compared as strings, otherwise
both are converted to numbers. -/
def Scalar.ge : Scalar → Scalar → Bool
  | .str s, .str t => !stringLessThan s t
  | a, b => JsNumber.ge a.toNumber b.toNumber

/-! ## `TailReadStream` -/

/-- A chunk read from the file: a `Buffer`, whose `length` counts bytes. -/
abbrev Chunk := List (Fin 256)

/-- The stream made by `fs.createReadStream(path, {start})` and held in
`_stream`. -/
structure FsStream where
  start : Nat
  paused : Bool
  deriving DecidableEq, Repr

/-- An error passed by `fs`; `code` is its `code` property. -/
structure FsError where
  code : Str
  deriving DecidableEq, Repr

/-- The constant `DOES_NOT_EXIST_ERROR`. -/
def DOES_NOT_EXIST_ERROR : Str := "ENOENT".toList

/-- The fields of `fs.Stats` the reader looks at: `size` and
`birthtime.getTime()`. -/
structure Stats where
  size : Nat
  birthtime : Int
  deriving DecidableEq, Repr

/-- The fields of a `TailReadStream`. `_interval` and `_timeout` are numbers
(the defaults or numeric options) or the strings of the environment variables
`TRS_READ_INTERVAL` and `TRS_READ_TIMEOUT`; `_idle` starts as the number 0 and
grows by `_idle += _interval`. The watch interval and the two thresholds are
only passed to `setTimeout` or compared with a number, which take a numeric
string as the number it writes; they are kept as that number. -/
structure Reader where
  readable : Bool
  stream : Option FsStream
  offset : Nat
  interval : Scalar
  timeout : Scalar
  watchinterval : Nat
  tailheadsize : Nat
  tailheadage : Nat
  idle : Scalar
  reading : Bool
  paused : Bool
  ended : Bool
  watching : Bool
  deriving DecidableEq, Repr

/-- What a method of the reader does to the outside, in program order. -/
inductive Effect where
  /-- The call `this.emit('data', data)`. -/
  | data (chunk : Chunk)
  /-- The call `this.emit('rename')`. -/
  | rename
  /-- The call `this.emit('truncate', size)`. -/
  | truncate (size : Nat)
  /-- The call `this.emit('nofile', err)`. -/
  | nofile (err : FsError)
  /-- The call `this.emit('error', err)`. -/
  | error (err : FsError)
  /-- The call `fs.createReadStream(path, {start})` with the three handlers attached. -/
  | createReadStream (start : Nat)
  /-- The call `fs.stat(path, callback)`. -/
  | stat
  /-- The timer `setTimeout(this._readFromOffsetUntilEof.bind(this), delay)`. -/
  | retryRead (delay : Scalar)
  /-- The timer `setTimeout(that._getFileSizeAndReadUntilEof.bind(that), delay)`. -/
  | retrySize (delay : Scalar)
  /-- The timer `setTimeout(that._watchFile.bind(that), delay)`. -/
  | retryWatch (delay : Nat)
  /-- The call `this.emit('end')`, without an argument. -/
  | endOfStream
  deriving DecidableEq, Repr

/-- The method `_hasTimedOut`: `this._idle >= this._timeout`. -/
def hasTimedOut (r : Reader) : Bool :=
  r.idle.ge r.timeout

/-- The method `_readFromOffsetUntilEof(offset)`; `none` is a call without an
argument (`isNaN(undefined)` holds), as made by the retry timer. -/
def readFromOffsetUntilEof (offset : Option Nat) (r : Reader) : Reader × List Effect :=
  let r1 : Reader :=
    match offset with
    | some n => { r with offset := n }
    | none => r
  if r1.paused || r1.reading then (r1, [])
  else
    ({ r1 with reading := true, stream := some { start := r1.offset, paused := false } },
      [.createReadStream r1.offset])

/-- The method `_retryInInterval`. -/
def retryInInterval (r : Reader) : Reader × List Effect :=
  (r, [.retryRead r.interval])

/-- The method `_getFileSizeAndReadUntilEof` up to its `fs.stat` call. -/
def getFileSizeAndReadUntilEof (r : Reader) : Reader × List Effect :=
  (r, [.stat])

/-- The callback of `fs.stat` in `_getFileSizeAndReadUntilEof`; `now` is the
value of `Date.now()`. -/
def getFileSizeAndReadUntilEofCallback (now : Int) (result : Except FsError Stats) (r : Reader) :
    Reader × List Effect :=
  match result with
  | .error err =>
    let r1 := { r with readable := false }
    if hasTimedOut r1 then (r1, [.nofile err])
    else if err.code = DOES_NOT_EXIST_ERROR then
      ({ r1 with idle := r1.idle.add r1.interval }, [.retrySize r1.interval])
    else (r1, [.error err])
  | .ok stats =>
    if stats.size < r.tailheadsize ∧ now - stats.birthtime < (r.tailheadage : Int) then
      readFromOffsetUntilEof (some 0) r
    else
      readFromOffsetUntilEof (some stats.size) r

/-- The method `_handleError`. -/
def handleError (error : FsError) (r : Reader) : Reader × List Effect :=
  let r1 := { r with reading := false }
  if hasTimedOut r1 then (r1, [.nofile error])
  else if error.code = DOES_NOT_EXIST_ERROR then
    let (r2, out) : Reader × List Effect :=
      if r1.readable then ({ r1 with readable := false, offset := 0 }, [.rename])
      else (r1, [])
    let r3 := { r2 with idle := r2.idle.add r2.interval }
    (r3, out ++ (retryInInterval r3).2)
  else
    ({ r1 with readable := false }, [.error error])

/-- The method `_handleData`. -/
def handleData (data : Chunk) (r : Reader) : Reader × List Effect :=
  ({ r with readable := true, offset := r.offset + data.length, idle := 0 }, [.data data])

/-- A sequence of `data` events, one call of `_handleData` each. -/
def handleDataSeq : List Chunk → Reader → Reader × List Effect
  | [], r => (r, [])
  | d :: ds, r =>
    let s1 := handleData d r
    let s2 := handleDataSeq ds s1.1
    (s2.1, s1.2 ++ s2.2)

/-- The method `_watchFile` up to its `fs.stat` call. -/
def watchFile (r : Reader) : Reader × List Effect :=
  if !r.readable then ({ r with watching := false }, [])
  else (r, [.stat])

/-- The callback of `fs.stat` in `_watchFile`. -/
def watchFileCallback (result : Except FsError Stats) (r : Reader) : Reader × List Effect :=
  match result with
  | .error _ => (r, [.retryWatch r.watchinterval])
  | .ok stats =>
    if stats.size < r.offset then
      let r1 : Reader :=
        if stats.size < r.tailheadsize then { r with offset := 0 }
        else { r with offset := stats.size }
      (r1, [.truncate stats.size, .retryWatch r1.watchinterval])
    else (r, [.retryWatch r.watchinterval])

/-- A run of `k + 1` consecutive read errors `error`: the first is handled on
`r`; each later one follows the firing of the retry timer, which calls
`_readFromOffsetUntilEof()` and opens the stream that fails. -/
def errorRun (error : FsError) : Nat → Reader → Reader × List Effect
  | 0, r => handleError error r
  | k + 1, r =>
    let s1 := errorRun error k r
    let s2 := readFromOffsetUntilEof none s1.1
    let s3 := handleError error s2.1
    (s3.1, s1.2 ++ s2.2 ++ s3.2)

/-- The bytes carried by the `data` events among the effects, concatenated in
order. -/
def emittedData : List Effect → Chunk
  | [] => []
  | .data chunk :: rest => chunk ++ emittedData rest
  | _ :: rest => emittedData rest

/-! ## `processChunk`

An integer below 2^53 in magnitude is a double, and the builtins are computed
on it exactly. Outside that range, and for a number the builtin first writes in
exponent notation, the result depends on the rounding of doubles and on the
digits chosen for the notation; it is then read from a `Host`. Whether a
conversion throws never depends on the `Host`. -/

/-- The results of the numeric builtins on the arguments where they are not
computed here. -/
structure Host where
  /-- The value of `parseInt(v)` for a string whose digits write an integer of
  2^53 or more, and for an array. -/
  parseInt : Json → JsNumber
  /-- The value of `parseInt(x)` for a number `x` other than 0 whose magnitude is
  below 10^-6 or at least 10^21. -/
  parseIntNumber : ℚ → JsNumber
  /-- The value of `v / 1000` for a `v` that is not an integer below 2^53 in
  magnitude, written as a number or as a string of decimal digits. -/
  divideBy1000 : Json → JsNumber

/-- The integer part of `q`, towards zero. -/
def truncQ (q : ℚ) : ℤ :=
  if 0 ≤ q then ⌊q⌋ else ⌈q⌉

/-- The largest magnitude below which every integer is a double: 2^53. -/
def maxExact : ℚ := 9007199254740992

/-- The step of `parseInt` without a radix argument that looks for `0x` or
`0X`: it selects radix 16 and is removed, otherwise the radix is 10. -/
def stripRadixPrefix (s : Str) : Nat × Str :=
  match s with
  | '0' :: 'x' :: rest => (16, rest)
  | '0' :: 'X' :: rest => (16, rest)
  | _ => (10, s)

/-- The builtin `parseInt(s)` on a string, without a radix: leading white space
is skipped, then a sign, then `0x` or `0X` selects radix 16, then the longest
run of digits is read; no digit gives `NaN`. An integer of 2^53 or more is
rounded by the builtin. -/
def parseIntString (host : Host) (s : Str) : JsNumber :=
  let signed := stripSign (s.dropWhile isWhiteSpace)
  let based := stripRadixPrefix signed.2
  let ds := leadingDigits based.1 based.2
  if ds.isEmpty then .nan
  else if (digitsValue based.1 ds : ℚ) < maxExact then
    .finite (if signed.1 then -(digitsValue based.1 ds : ℚ) else (digitsValue based.1 ds : ℚ))
  else host.parseInt (.str s)

/-- The builtin `parseInt(x)` on a number: the number is first written as a
string, in plain decimal notation when it is 0 or its magnitude is at least
10^-6 and below 10^21, and the digits before the decimal point are read. -/
def parseIntNumber (host : Host) (q : ℚ) : JsNumber :=
  if q = 0 then .finite 0
  else if 1 / 1000000 ≤ |q| ∧ |q| < 1000000000000000000000 then .finite (truncQ q)
  else host.parseIntNumber q

/-- Why a call gives no result: a `TypeError` leaves the function. -/
inductive Fail where
  | throws

/-- The builtin `parseInt(v)` on a parsed value. The conversion of `v` to a
string throws as described at `toPrimitiveThrows`; `null`, a boolean and an
object without an own `toString` are written `null`, `true`, `false` and
`[object Object]`, which start with no digit. -/
def parseInt (host : Host) (v : Json) : Except Fail JsNumber :=
  if toPrimitiveThrows v then .error .throws
  else
    match v with
    | .null => .ok .nan
    | .bool _ => .ok .nan
    | .num q => .ok (parseIntNumber host q)
    | .str s => .ok (parseIntString host s)
    | .arr _ => .ok (host.parseInt v)
    | .obj _ => .ok .nan

/-- The builtin `parseInt` on the result of an arithmetic expression: `NaN` and
the infinities are written `NaN`, `Infinity` and `-Infinity`, which start with
no digit. -/
def parseIntOfNumber (host : Host) : JsNumber → JsNumber
  | .finite q => parseIntNumber host q
  | _ => .nan

/-- The expression `v / 1000` for a `v` whose conversion does not throw. For an
integer below 2^53 in magnitude the exact quotient stands for the double nearest
to it: the two have the same integer part, since a quotient that is not an
integer is at least 1/1000 away from one. -/
def divideBy1000 (host : Host) (v : Json) : JsNumber :=
  match v with
  | .num q => if q.isInt ∧ |q| < maxExact then .finite (q / 1000) else host.divideBy1000 v
  | .str s =>
    if isDecimal s ∧ (decimalValue s : ℚ) < maxExact then .finite ((decimalValue s : ℚ) / 1000)
    else host.divideBy1000 v
  | _ => host.divideBy1000 v

/-- A value held by a field of a record: `undefined`, `NaN`, an infinity, or a
value `JSON.parse` can produce (finite numbers included). -/
inductive JsValue where
  | undefined
  | nan
  | infinity (negative : Bool)
  | val (v : Json)

/-- The abstract operation ToBoolean. -/
def JsValue.truthy : JsValue → Bool
  | .undefined => false
  | .nan => false
  | .infinity _ => true
  | .val v => v.truthy

/-- A number as the value of a field. -/
def JsNumber.toValue : JsNumber → JsValue
  | .nan => .nan
  | .infinity negative => .infinity negative
  | .finite q => .val (.num q)

/-- The object handed to `linebuffer.addMessage` by the journald reader. A
property the object literal does not have reads as `undefined`. -/
structure JournalRecord where
  t : JsValue
  l : JsValue
  f : JsValue
  pid : JsValue
  prival : JsValue
  containerid : JsValue

/-- The property read `data.key` on a parsed value other than `null`;
booleans, numbers, strings and arrays have none of the properties read here. -/
def readProp (d : Json) (key : Str) : JsValue :=
  match d with
  | .obj props =>
    match getProp props key with
    | some v => .val v
    | none => .undefined
  | _ => .undefined

/-- The expression `x && parseInt(x)`. -/
def andParseInt (host : Host) (x : JsValue) : Except Fail JsValue :=
  match x with
  | .val v =>
    if v.truthy then
      match parseInt host v with
      | .ok n => .ok n.toValue
      | .error e => .error e
    else .ok x
  | .infinity _ => .ok .nan
  | _ => .ok x

/-- The expression `a || b`. -/
def orElse (a b : JsValue) : JsValue :=
  if a.truthy then a else b

/-- The value of `data.__REALTIME_TIMESTAMP` after the `if` block of
`processChunk`, from its value `ts` before. The division converts the value that
`parseInt` has converted, so it does not throw. -/
def convertTimestamp (host : Host) (ts : JsValue) : Except Fail JsValue :=
  match ts with
  | .val v =>
    if v.truthy then
      match parseInt host v with
      | .error e => .error e
      | .ok n =>
        if n.gt (.finite 10000000000000) then
          .ok (parseIntOfNumber host (divideBy1000 host v)).toValue
        else .ok ts
    else .ok ts
  | _ => .ok ts

/-- The record `{ t: Date.now(), l: text, f: 'systemd' }`. -/
def rawRecord (now : Int) (text : Str) : JournalRecord :=
  { t := .val (.num now), l := .val (.str text), f := .val (.str "systemd".toList),
    pid := .undefined, prival := .undefined, containerid := .undefined }

/-- The function `processChunk(data)`. `jsonParse` is `JSON.parse` (`none` when
it throws) and `now` the value of `Date.now()`. Only `JSON.parse` is inside the
`try`. -/
def processChunk (host : Host) (jsonParse : Str → Option Json) (now : Int) (data : Str) :
    Except Fail JournalRecord :=
  match jsonParse data with
  | none => .ok (rawRecord now data)
  | some .null =>
    -- `data.__REALTIME_TIMESTAMP` on `null` throws
    .error .throws
  | some d => do
    let t ← convertTimestamp host (readProp d "__REALTIME_TIMESTAMP".toList)
    let pid ← andParseInt host (readProp d "_PID".toList)
    let prival ← andParseInt host (readProp d "PRIORITY".toList)
    pure
      { t := t
        l := readProp d "MESSAGE".toList
        f := orElse (orElse (readProp d "CONTAINER_NAME".toList)
              (readProp d "SYSLOG_IDENTIFIER".toList))
              (.val (.str "UNKNOWN_SYSTEMD_APP".toList))
        pid := pid
        prival := prival
        containerid := readProp d "CONTAINER_ID_FULL".toList }

/-! ## The journald `data` handler -/

/-- How one pass of the `for` loop, or the whole handler, ends: the value of
`lastchunk`, the records handed to `linebuffer.addMessage` in order, and whether
an exception of `processChunk` has left the handler (nothing catches it). -/
structure Handled where
  lastchunk : LastChunk
  emitted : List JournalRecord
  threw : Bool

/-- Body of the `for` loop of the journald `data` handler for one candidate
line `data[i]`; `now` is the value of `Date.now()` during this pass. An
exception of `processChunk` leaves the loop before `addMessage` is called and
before `lastchunk` is cleared. -/
def journalLine (host : Host) (jsonParse : Str → Option Json) (now : Int)
    (lastchunk : LastChunk) (line : Str) : Handled :=
  if firstChar line = ['{'] ∧ lastChar line = ['}'] then
    -- full chunk
    match processChunk host jsonParse now line with
    | .ok record =>
      { lastchunk := if lastchunk.truthy then none else lastchunk
        emitted := [record], threw := false }
    | .error _ => { lastchunk := lastchunk, emitted := [], threw := true }
  else if firstChar line = ['{'] then
    -- starting chunk
    { lastchunk := some ((if lastchunk.truthy then lastchunk.text else []) ++ line)
      emitted := [], threw := false }
  else if lastchunk.truthy ∧ lastChar line = ['}'] then
    -- ending chunk: `lastchunk += data[i]` comes first
    match processChunk host jsonParse now (lastchunk.text ++ line) with
    | .ok record => { lastchunk := none, emitted := [record], threw := false }
    | .error _ =>
      { lastchunk := some (lastchunk.text ++ line), emitted := [], threw := true }
  else if lastchunk.truthy ∧ lastchunk.text.length < maxPartial then
    -- append chunk
    { lastchunk := some (lastchunk.text ++ line), emitted := [], threw := false }
  else
    { lastchunk := lastchunk, emitted := [rawRecord now line], threw := false }

/-- The `for` loop over the candidate lines `data[i..]`; `clock j` is the value
of `Date.now()` during the pass for `data[j]`. The loop ends at the first pass
that throws. -/
def journalLines (host : Host) (jsonParse : Str → Option Json) (clock : Nat → Int) :
    Nat → LastChunk → List Str → Handled
  | _, lastchunk, [] => { lastchunk := lastchunk, emitted := [], threw := false }
  | i, lastchunk, line :: rest =>
    let r := journalLine host jsonParse (clock i) lastchunk line
    if r.threw then r
    else
      let r2 := journalLines host jsonParse clock (i + 1) r.lastchunk rest
      { lastchunk := r2.lastchunk, emitted := r.emitted ++ r2.emitted, threw := r2.threw }

/-- The handler `journalctl.stdout.on('data', ...)` on one chunk (already
decoded by `data.toString()`). -/
def journalData (host : Host) (jsonParse : Str → Option Json) (clock : Nat → Int)
    (lastchunk : LastChunk) (data : Str) : Handled :=
  journalLines host jsonParse clock 0 lastchunk (splitLines (trim data))

/-- The values of `JSON.parse` on the journald lines used in the examples of
this file; every other text is treated as invalid. -/
def exampleJournalParse (line : Str) : Option Json :=
  if line = "\x7b\"a\":1\x7d".toList then
    some (.obj [("a".toList, .num 1)])
  else if line = "\x7b\"b\":2\x7d".toList then
    some (.obj [("b".toList, .num 2)])
  else if line = "\x7b\"__REALTIME_TIMESTAMP\":\x7b\"toString\":null\x7d\x7d".toList then
    some (.obj [("__REALTIME_TIMESTAMP".toList, .obj [("toString".toList, .null)])])
  else if line = "\x7b\"MESSAGE\":\"m\",\"_PID\":\x7b\"toString\":null\x7d\x7d".toList then
    some (.obj [("MESSAGE".toList, .str "m".toList),
      ("_PID".toList, .obj [("toString".toList, .null)])])
  else if line = ("\x7b\"__REALTIME_TIMESTAMP\":\"1700000000123456\",\"MESSAGE\":\"up\"," ++
      "\"SYSLOG_IDENTIFIER\":\"sshd\",\"_PID\":\"812\",\"PRIORITY\":\"6\"\x7d").toList then
    some (.obj [("__REALTIME_TIMESTAMP".toList, .str "1700000000123456".toList),
      ("MESSAGE".toList, .str "up".toList), ("SYSLOG_IDENTIFIER".toList, .str "sshd".toList),
      ("_PID".toList, .str "812".toList), ("PRIORITY".toList, .str "6".toList)])
  else if line = "\x7b\"__REALTIME_TIMESTAMP\":\"9007199254740999\"\x7d".toList then
    some (.obj [("__REALTIME_TIMESTAMP".toList, .str "9007199254740999".toList)])
  else if line = "\x7b\"__REALTIME_TIMESTAMP\":\"150000000000000992\"\x7d".toList then
    some (.obj [("__REALTIME_TIMESTAMP".toList, .str "150000000000000992".toList)])
  else none

/-- The values of the numeric builtins on the arguments the examples of this
file hand to a `Host`. `parseInt('9007199254740999')` is the nearest double,
9007199254741000, and `'9007199254740999' / 1000` is 9007199254741.
`parseInt('150000000000000992')` is 150000000000000992, which is a double, and
`'150000000000000992' / 1000` is the double nearest to 150000000000000.992,
which is 150000000000001 (the doubles of that size are 1/32 apart). -/
def exampleHost : Host :=
  { parseInt := fun v =>
      match v with
      | .str s =>
        if s = "9007199254740999".toList then .finite 9007199254741000
        else if s = "150000000000000992".toList then .finite 150000000000000992
        else .nan
      | _ => .nan
    parseIntNumber := fun _ => .nan
    divideBy1000 := fun v =>
      match v with
      | .str s =>
        if s = "9007199254740999".toList then .finite 9007199254741
        else if s = "150000000000000992".toList then .finite 150000000000001
        else .nan
      | _ => .nan }

/-! ## `TailReadStream`: end of stream, pause and resume, construction -/

/-- The method `destroy`. -/
def destroy (r : Reader) : Reader :=
  { r with readable := false, stream := none }

/-- The method `_handleEnd`. -/
def handleEnd (r : Reader) : Reader × List Effect :=
  let r1 := { r with reading := false }
  let s : Reader × List Effect :=
    if !r1.watching then watchFile { r1 with watching := true } else (r1, [])
  if !hasTimedOut s.1 then (s.1, s.2 ++ (retryInInterval s.1).2)
  else (destroy s.1, s.2 ++ [.endOfStream])

/-- Cycles of a reader whose file exists and does not grow: `_handleEnd` on `r`,
then `k` times the retry timer fires, `_readFromOffsetUntilEof()` opens a
stream, and the stream ends without data. -/
def endCycles : Nat → Reader → Reader × List Effect
  | 0, r => handleEnd r
  | k + 1, r =>
    let s1 := endCycles k r
    let s2 := readFromOffsetUntilEof none s1.1
    let s3 := handleEnd s2.1
    (s3.1, s1.2 ++ s2.2 ++ s3.2)

/-- How a method call ends: it returns, or it throws a `TypeError`; either way
with the reader in the state given. -/
inductive Call where
  | returned (r : Reader)
  | threw (r : Reader)
  deriving DecidableEq, Repr

/-- The method `pause`; `this._stream.pause()` throws when `_stream` is `null`. -/
def pause (r : Reader) : Call :=
  let r1 := { r with paused := true }
  match r1.stream with
  | none => .threw r1
  | some s => .returned { r1 with stream := some { s with paused := true } }

/-- The reader after a call. -/
def Call.state : Call → Reader
  | .returned r => r
  | .threw r => r

/-- The method `resume`. -/
def resume (r : Reader) : Reader × List Effect :=
  match r.stream with
  | none => (r, [])
  | some s =>
    readFromOffsetUntilEof none
      { r with paused := false, stream := some { s with paused := false } }

/-- The numeric options of `TailReadStream`; `none` is an absent property. -/
structure Options where
  interval : Option Nat
  timeout : Option Nat
  watchinterval : Option Nat
  tailheadsize : Option Nat
  tailheadage : Option Nat
  deriving DecidableEq, Repr

/-- The expression `options.x || DEFAULT` for a numeric option: an absent
option and 0 are falsy. -/
def optionOr (o : Option Nat) (dflt : Nat) : Nat :=
  match o with
  | some n => if n = 0 then dflt else n
  | none => dflt

/-- The environment variables the constructor reads; `none` is a variable that
is not set. `TRS_READ_INTERVAL` and `TRS_READ_TIMEOUT` are the strings
themselves; the other three are given by the number their string writes (see
`Reader`). -/
structure Env where
  TRS_READ_INTERVAL : Option Str
  TRS_READ_TIMEOUT : Option Str
  TRS_WATCH_INTERVAL : Option Nat
  TRS_TAILHEAD_SIZE : Option Nat
  TRS_TAILHEAD_AGE : Option Nat
  deriving DecidableEq, Repr

/-- The environment with none of the `TRS_*` variables set. -/
def emptyEnv : Env :=
  { TRS_READ_INTERVAL := none, TRS_READ_TIMEOUT := none, TRS_WATCH_INTERVAL := none,
    TRS_TAILHEAD_SIZE := none, TRS_TAILHEAD_AGE := none }

/-- The expression `process.env.X || rest` for a variable kept as a string: a
variable that is not set and the empty string are falsy. -/
def envOr (e : Option Str) (rest : Scalar) : Scalar :=
  match e with
  | some s => if s.isEmpty then rest else .str s
  | none => rest

/-- The expression `process.env.X || rest` for a variable given by its number:
a numeric string is not empty, so it is truthy whatever its value. -/
def envNumberOr (e : Option Nat) (rest : Nat) : Nat :=
  match e with
  | some n => n
  | none => rest

/-- The constructor `TailReadStream(filepath, options)`: each setting is the
environment variable, else the option, else the default. -/
def newTailReadStream (env : Env) (options : Options) : Reader :=
  { readable := true
    stream := none
    offset := 0
    interval := envOr env.TRS_READ_INTERVAL (.num (optionOr options.interval 1000))
    timeout := envOr env.TRS_READ_TIMEOUT (.num (optionOr options.timeout 3600000))
    watchinterval := envNumberOr env.TRS_WATCH_INTERVAL (optionOr options.watchinterval 1000)
    tailheadsize := envNumberOr env.TRS_TAILHEAD_SIZE (optionOr options.tailheadsize 8192)
    tailheadage := envNumberOr env.TRS_TAILHEAD_AGE (optionOr options.tailheadage 60000)
    idle := 0
    reading := false
    paused := false
    ended := false
    watching := false }

/-- The second argument of `TailReadStream.tail` after the shift of arguments:
left out (or the options object, which makes it `false`), a boolean, or a
number. -/
inductive FromStart where
  | omitted
  | flag (b : Bool)
  | offset (n : Nat)
  deriving DecidableEq, Repr

/-- The function `TailReadStream.tail(filepath, fromstart, options)`. -/
def tail (env : Env) (fromstart : FromStart) (options : Options) : Reader × List Effect :=
  let file := newTailReadStream env options
  match fromstart with
  | .flag true =>
    -- read from start
    readFromOffsetUntilEof none file
  | .offset n =>
    -- `if (fromstart)`: the number 0 is falsy
    if n ≠ 0 then readFromOffsetUntilEof (some n) file
    else getFileSizeAndReadUntilEof file
  | _ =>
    -- tail from end
    getFileSizeAndReadUntilEof file

/-! ## `streamFiles`: the listeners on a tail -/

/-- The listener `tail.on('end', (err) => ...)` for the tail of `file`: the new
value of `files`. `err` is the argument the event was emitted with. -/
def onEnd (file : Str) (err : Option FsError) (files : List Str) : List Str :=
  match err with
  | some _ => files.filter (fun element => decide (element ≠ file))
  | none => files

/-- What an event emitted by the tail of `file` does to `files`. `streamFiles`
listens to `error`, `end`, `rename` and `truncate` (and to `data` through the
pipe); `nofile` has no listener. Only the `end` listener touches `files`. -/
def onTailEvent (file : Str) (files : List Str) : Effect → List Str
  | .endOfStream => onEnd file none files
  | .nofile _ => files
  | .error _ => files
  | .rename => files
  | .truncate _ => files
  | _ => files

/-- The value of `files` after the events among `effects`, in order. -/
def onTailEvents (file : Str) (files : List Str) (effects : List Effect) : List Str :=
  effects.foldl (onTailEvent file) files

/-! ## A file that is never found -/

/-- Whether the effect is the timer that calls `_getFileSizeAndReadUntilEof`. -/
def Effect.isRetrySize : Effect → Bool
  | .retrySize _ => true
  | _ => false

/-- Whether the effect is the timer that calls `_readFromOffsetUntilEof`. -/
def Effect.isRetryRead : Effect → Bool
  | .retryRead _ => true
  | _ => false

/-- Whether the effect is the opening of a read stream. -/
def Effect.isCreateReadStream : Effect → Bool
  | .createReadStream _ => true
  | _ => false

/-- The sizing loop when every `stat` fails with `e`: `_getFileSizeAndReadUntilEof`
is called, its callback gets the error, and the loop goes on for as long as the
callback has set the retry timer. `fuel` bounds the number of attempts. -/
def sizingLoop (now : Int) (e : FsError) : Nat → Reader → Reader × List Effect
  | 0, r => (r, [])
  | fuel + 1, r =>
    let s1 := getFileSizeAndReadUntilEof r
    let s2 := getFileSizeAndReadUntilEofCallback now (.error e) s1.1
    if s2.2.any Effect.isRetrySize then
      let s3 := sizingLoop now e fuel s2.1
      (s3.1, s1.2 ++ s2.2 ++ s3.2)
    else (s2.1, s1.2 ++ s2.2)

/-- The read loop when every read fails with `e`: `_handleError` gets the
error; if it has set the retry timer, the timer calls
`_readFromOffsetUntilEof()`, and if that opens a stream the stream fails in
turn. `fuel` bounds the number of attempts. -/
def readLoop (e : FsError) : Nat → Reader → Reader × List Effect
  | 0, r => (r, [])
  | fuel + 1, r =>
    let s1 := handleError e r
    if s1.2.any Effect.isRetryRead then
      let s2 := readFromOffsetUntilEof none s1.1
      if s2.2.any Effect.isCreateReadStream then
        let s3 := readLoop e fuel s2.1
        (s3.1, s1.2 ++ s2.2 ++ s3.2)
      else (s2.1, s1.2 ++ s2.2)
    else (s1.1, s1.2)

/-- Whether the conversion in `x && parseInt(x)`, or in the timestamp block,
throws: `x` is truthy and cannot be converted to a primitive. -/
def conversionThrows (x : JsValue) : Bool :=
  match x with
  | .val v => v.truthy && toPrimitiveThrows v
  | _ => false

/-! ## Theorems -/

theorem indexOf_ge_neg_one {α : Type} [DecidableEq α] (xs : List α) (x : α) :
    -1 ≤ indexOf xs x := by
  induction xs with
  | nil => simp [indexOf]
  | cons y ys ih =>
    unfold indexOf
    split_ifs <;> omega

theorem indexOf_lt_length {α : Type} [DecidableEq α] (xs : List α) (x : α) :
    indexOf xs x < (xs.length : Int) := by
  induction xs with
  | nil => simp [indexOf]
  | cons y ys ih =>
    unfold indexOf
    simp only [List.length_cons, Nat.cast_add, Nat.cast_one]
    split_ifs <;> omega

theorem indexOf_neg_iff {α : Type} [DecidableEq α] (xs : List α) (x : α) :
    indexOf xs x < 0 ↔ x ∉ xs := by
  induction xs with
  | nil => simp [indexOf]
  | cons y ys ih =>
    have h1 := indexOf_ge_neg_one ys x
    unfold indexOf
    by_cases hy : y = x
    · subst hy; simp
    · have hx : ¬ x = y := fun h => hy h.symm
      simp only [hy, if_false, List.mem_cons, hx, false_or]
      rw [← ih]
      split_ifs <;> omega

theorem indexOf_append_of_mem {α : Type} [DecidableEq α] (pre suf : List α) (x : α)
    (h : x ∈ pre) : indexOf (pre ++ suf) x = indexOf pre x := by
  induction pre with
  | nil => simp at h
  | cons y ys ih =>
    simp only [List.cons_append]
    unfold indexOf
    by_cases hy : y = x
    · simp [hy]
    · have hx : x ∈ ys := by
        rcases List.mem_cons.mp h with h | h
        · exact absurd h.symm hy
        · exact h
      simp only [hy, if_false, ih hx]

theorem indexOf_append_of_not_mem {α : Type} [DecidableEq α] (pre suf : List α) (x : α)
    (h : x ∉ pre) : indexOf (pre ++ x :: suf) x = (pre.length : Int) := by
  induction pre with
  | nil => simp [indexOf]
  | cons y ys ih =>
    have hy : ¬ y = x := fun e => h (by simp [e])
    have hx : x ∉ ys := fun e => h (List.mem_cons_of_mem _ e)
    simp only [List.cons_append, List.length_cons, Nat.cast_add, Nat.cast_one]
    unfold indexOf
    simp only [hy, if_false, ih hx]
    split_ifs <;> omega

theorem filterIdxFrom_first_occurrence {α : Type} [DecidableEq α] (suf pre : List α) :
    let out := filterIdxFrom (fun e i => decide (indexOf (pre ++ suf) e = (i : Int)))
      pre.length suf
    (∀ y, y ∈ out ↔ y ∈ suf ∧ y ∉ pre) ∧ out.Nodup := by
  induction suf generalizing pre with
  | nil => simp [filterIdxFrom]
  | cons x r ih =>
    have ih1 := ih (pre ++ [x])
    simp only [List.append_assoc, List.singleton_append, List.length_append,
      List.length_singleton] at ih1
    obtain ⟨ihm, ihn⟩ := ih1
    by_cases hx : x ∈ pre
    · have hlt : indexOf (pre ++ x :: r) x ≠ (pre.length : Int) := by
        rw [indexOf_append_of_mem pre (x :: r) x hx]
        exact ne_of_lt (indexOf_lt_length pre x)
      simp only [filterIdxFrom, hlt, decide_False, Bool.false_eq_true, if_false]
      refine ⟨fun y => ?_, ihn⟩
      rw [ihm y]
      simp only [List.mem_append, List.mem_singleton, List.mem_cons, not_or]
      constructor
      · rintro ⟨h1, h2, _⟩; exact ⟨Or.inr h1, h2⟩
      · rintro ⟨h1 | h1, h2⟩
        · subst h1; exact absurd hx h2
        · have e : ¬ y = x := fun e => h2 (by rw [e]; exact hx)
          simp [h1, h2, e]
    · have heq : indexOf (pre ++ x :: r) x = (pre.length : Int) :=
        indexOf_append_of_not_mem pre r x hx
      simp only [filterIdxFrom, heq, decide_True, if_true]
      refine ⟨fun y => ?_, ?_⟩
      · simp only [List.mem_cons]
        rw [ihm y]
        simp only [List.mem_append, List.mem_singleton, not_or]
        constructor
        · rintro (h1 | ⟨h1, h2, _⟩)
          · subst h1; exact ⟨Or.inl rfl, hx⟩
          · exact ⟨Or.inr h1, h2⟩
        · rintro ⟨h1 | h1, h2⟩
          · exact Or.inl h1
          · by_cases e : y = x
            · exact Or.inl e
            · right; simp [h1, h2, e]
      · refine List.nodup_cons.mpr ⟨fun hmem => ?_, ihn⟩
        have := (ihm x).mp hmem
        simp at this

theorem filterIdx_first_occurrence {α : Type} [DecidableEq α] (xs : List α) :
    let out := filterIdx (fun e i => decide (indexOf xs e = (i : Int))) xs
    (∀ y, y ∈ out ↔ y ∈ xs) ∧ out.Nodup := by
  have h := filterIdxFrom_first_occurrence xs []
  simpa [filterIdx] using h

theorem mem_scanDir (files newfiles : List Str) (d : Discovery) (y : Str) :
    y ∈ scanDir files newfiles d ↔ y ∈ newfiles ∨ (y ∈ discovered [d] ∧ y ∉ files) := by
  cases d with
  | error => simp [scanDir, discovered]
  | ok logfiles =>
    simp only [scanDir, discovered, List.append_nil]
    split_ifs with hl
    · rw [(filterIdx_first_occurrence _).1 y]
      simp [List.mem_filter, indexOf_neg_iff]
    · have : logfiles = [] := by
        cases logfiles with
        | nil => rfl
        | cons a l => simp at hl
      simp [this]

theorem nodup_scanDir (files newfiles : List Str) (d : Discovery) (h : newfiles.Nodup) :
    (scanDir files newfiles d).Nodup := by
  cases d with
  | error => simpa [scanDir] using h
  | ok logfiles =>
    simp only [scanDir]
    split_ifs
    · exact (filterIdx_first_occurrence _).2
    · exact h

theorem foldl_scanDir (files : List Str) (results : List Discovery) (init : List Str)
    (h : init.Nodup) :
    (results.foldl (scanDir files) init).Nodup ∧
    ∀ y, y ∈ results.foldl (scanDir files) init ↔
      y ∈ init ∨ (y ∈ discovered results ∧ y ∉ files) := by
  induction results generalizing init with
  | nil => simp [discovered, h]
  | cons d rest ih =>
    obtain ⟨hn, hm⟩ := ih (scanDir files init d) (nodup_scanDir files init d h)
    refine ⟨hn, fun y => ?_⟩
    simp only [List.foldl_cons]
    rw [hm y, mem_scanDir]
    cases d with
    | error => simp [discovered]
    | ok logfiles =>
      simp only [discovered, List.append_nil, List.mem_append]
      tauto

/-- C1: one `streamAllLogs` sync over a duplicate-free managed list `files`
computes `newfiles` (the argument of `streamFiles`) without duplicates, disjoint
from `files`, containing every discovered path that was not managed (and nothing
else), and the managed list becomes `files ++ newfiles`, again duplicate-free. -/
theorem streamAllLogs_sync (files : List Str) (results : List Discovery)
    (hfiles : files.Nodup) :
    (streamAllLogs files results).started.Nodup ∧
    (∀ p ∈ (streamAllLogs files results).started, p ∉ files) ∧
    (∀ p ∈ discovered results, p ∉ files → p ∈ (streamAllLogs files results).started) ∧
    (∀ p ∈ (streamAllLogs files results).started, p ∈ discovered results) ∧
    (streamAllLogs files results).files = files ++ (streamAllLogs files results).started ∧
    (streamAllLogs files results).files.Nodup := by
  obtain ⟨hn, hm⟩ := foldl_scanDir files results [] List.nodup_nil
  simp only [streamAllLogs]
  refine ⟨hn, ?_, ?_, ?_, trivial, ?_⟩
  · intro p hp
    have := (hm p).mp hp
    simp at this
    exact this.2
  · intro p hp hnf
    exact (hm p).mpr (Or.inr ⟨hp, hnf⟩)
  · intro p hp
    have := (hm p).mp hp
    simp at this
    exact this.1
  · refine List.Nodup.append hfiles hn ?_
    intro p hp1 hp2
    have := (hm p).mp hp2
    simp at this
    exact this.2 hp1

/-- Witness for C1: `/var/log/a` is managed; two directories both report
`/var/log/b`, one of them also the managed `/var/log/a`. -/
theorem streamAllLogs_sync_witness :
    (streamAllLogs ["/var/log/a".toList]
        [.ok ["/var/log/a".toList, "/var/log/b".toList], .error,
         .ok ["/var/log/b".toList]]).started = ["/var/log/b".toList] ∧
    (streamAllLogs ["/var/log/a".toList]
        [.ok ["/var/log/a".toList, "/var/log/b".toList], .error,
         .ok ["/var/log/b".toList]]).files.Nodup :=
  ⟨by decide,
   (streamAllLogs_sync ["/var/log/a".toList]
      [.ok ["/var/log/a".toList, "/var/log/b".toList], .error,
       .ok ["/var/log/b".toList]] (by decide)).2.2.2.2.2⟩

/-! ### Splitting and trimming -/

theorem splitLines_ne_nil (s : Str) : splitLines s ≠ [] := by
  induction s with
  | nil => simp [splitLines]
  | cons c cs ih =>
    unfold splitLines
    split_ifs
    · simp
    · split <;> simp

theorem splitLines_of_no_newline (s : Str) (h : '\n' ∉ s) : splitLines s = [s] := by
  induction s with
  | nil => simp [splitLines]
  | cons c cs ih =>
    have hc : ¬ c = '\n' := fun e => h (by simp [e])
    have hcs : '\n' ∉ cs := fun e => h (List.mem_cons_of_mem _ e)
    unfold splitLines
    simp [hc, ih hcs]

theorem splitLines_append_newline (s t : Str) (h : '\n' ∉ s) :
    splitLines (s ++ '\n' :: t) = s :: splitLines t := by
  induction s with
  | nil => simp [splitLines]
  | cons c cs ih =>
    have hc : ¬ c = '\n' := fun e => h (by simp [e])
    have hcs : '\n' ∉ cs := fun e => h (List.mem_cons_of_mem _ e)
    simp only [List.cons_append]
    rw [splitLines]
    simp [hc, ih hcs]

theorem trim_eq_self_iff (s : Str) :
    trim s = s ↔ s.dropWhile isWhiteSpace = s ∧ s.rdropWhile isWhiteSpace = s := by
  constructor
  · intro h
    have hpre : (s.dropWhile isWhiteSpace).rdropWhile isWhiteSpace <+:
        s.dropWhile isWhiteSpace := List.rdropWhile_prefix isWhiteSpace _
    have hsuf : s.dropWhile isWhiteSpace <:+ s := List.dropWhile_suffix _
    have hlen : s.length ≤ (s.dropWhile isWhiteSpace).length := by
      have := hpre.length_le
      unfold trim at h
      rw [h] at this
      exact this
    have hd : s.dropWhile isWhiteSpace = s := hsuf.eq_of_length_le hlen
    refine ⟨hd, ?_⟩
    unfold trim at h
    rw [hd] at h
    exact h
  · rintro ⟨h1, h2⟩
    unfold trim
    rw [h1, h2]

theorem dropWhile_append_self {p : Char → Bool} (l m : Str) (hl : l ≠ [])
    (h : l.dropWhile p = l) : (l ++ m).dropWhile p = l ++ m := by
  cases l with
  | nil => exact absurd rfl hl
  | cons x l' =>
    have hx : ¬ p x = true := by
      have := (List.dropWhile_eq_self_iff).mp h (by simp)
      simpa using this
    simp [List.dropWhile_cons, hx]

theorem rdropWhile_append_self {p : Char → Bool} (l m : Str) (hm : m ≠ [])
    (h : m.rdropWhile p = m) : (l ++ m).rdropWhile p = l ++ m := by
  rw [List.rdropWhile_eq_self_iff] at h ⊢
  intro hne
  rw [List.getLast_append_of_ne_nil hm]
  exact h hm

theorem ne_nil_of_firstChar {s : Str} {c : Char} (h : firstChar s = [c]) : s ≠ [] := by
  intro e
  simp [e, firstChar] at h

theorem dropWhile_of_firstChar_brace {s : Str} (h : firstChar s = ['{']) :
    s.dropWhile isWhiteSpace = s := by
  cases s with
  | nil => simp [firstChar] at h
  | cons x xs =>
    have hx : x = '{' := by simpa [firstChar] using h
    subst hx
    have : isWhiteSpace '{' = false := by decide
    simp [List.dropWhile_cons, this]

theorem rdropWhile_of_lastChar_brace {s : Str} (h : lastChar s = ['}']) :
    s.rdropWhile isWhiteSpace = s := by
  rw [List.rdropWhile_eq_self_iff]
  intro hne
  have hs : s = s.dropLast ++ [s.getLast hne] := (List.dropLast_append_getLast hne).symm
  have hl : lastChar s = [s.getLast hne] := by
    unfold lastChar
    conv_lhs => rw [hs]
    have : (s.dropLast ++ [s.getLast hne]).length - 1 = s.dropLast.length := by simp
    rw [this, List.drop_left]
  rw [hl] at h
  have hx : s.getLast hne = '}' := by simpa using h
  rw [hx]
  decide


/-! ### `parseLine` -/

theorem getProp_cons (p : Str × Json) (ps : List (Str × Json)) (key : Str) :
    getProp (p :: ps) key = if p.1 = key then some p.2 else getProp ps key := by
  unfold getProp
  by_cases h : p.1 = key <;> simp [List.find?_cons, h]

theorem getProp_append_singleton (ps : List (Str × Json)) (k key : Str) (v : Json) :
    getProp (ps ++ [(k, v)]) key =
      match getProp ps key with
      | some w => some w
      | none => if k = key then some v else none := by
  induction ps with
  | nil =>
    by_cases h : k = key <;> simp [getProp, h]
  | cons p ps ih =>
    simp only [List.cons_append, getProp_cons]
    by_cases h : p.1 = key
    · simp [h]
    · simp [h, ih]

theorem getProp_eq_none_of_not_any (ps : List (Str × Json)) (key : Str)
    (h : ps.any (fun p => decide (p.1 = key)) = false) : getProp ps key = none := by
  induction ps with
  | nil => simp [getProp]
  | cons p ps ih =>
    simp only [List.any_cons, Bool.or_eq_false_iff, decide_eq_false_iff_not] at h
    simp [getProp_cons, h.1, ih h.2]

theorem getProp_map_set (ps : List (Str × Json)) (k key : Str) (v : Json) :
    getProp (ps.map (fun p => if p.1 = k then (k, v) else p)) key =
      if k = key then (if ps.any (fun p => decide (p.1 = k)) then some v else none)
      else getProp ps key := by
  induction ps with
  | nil => simp [getProp]
  | cons p ps ih =>
    simp only [List.map_cons, getProp_cons, List.any_cons, ih]
    by_cases h1 : p.1 = k <;> by_cases h2 : k = key
    · simp [h1, h2]
    · simp [h1, h2]
    · subst h2
      simp only [h1, if_false, if_true, Bool.or_eq_true, decide_eq_true_eq, false_or]
    · simp [h1, h2]

theorem getProp_setProp (ps : List (Str × Json)) (k key : Str) (v : Json) :
    getProp (setProp ps k v) key = if k = key then some v else getProp ps key := by
  unfold setProp
  by_cases ha : ps.any (fun p => decide (p.1 = k)) = true
  · simp only [ha, if_true, getProp_map_set]
  · have ha2 : ps.any (fun p => decide (p.1 = k)) = false := by
      cases hb : ps.any (fun p => decide (p.1 = k)) with
      | false => rfl
      | true => exact absurd hb ha
    rw [if_neg ha, getProp_append_singleton]
    by_cases h2 : k = key
    · subst h2
      simp [getProp_eq_none_of_not_any ps k ha2]
    · simp only [h2, if_false]
      cases hg : getProp ps key with
      | none => rfl
      | some w => rfl

theorem getProp_deleteProp_ne (ps : List (Str × Json)) (k key : Str) (h : k ≠ key) :
    getProp (deleteProp ps k) key = getProp ps key := by
  induction ps with
  | nil => simp [deleteProp, getProp]
  | cons p ps ih =>
    unfold deleteProp at ih ⊢
    by_cases h1 : p.1 = k
    · have h2 : ¬ p.1 = key := fun e => h (h1.symm.trans e)
      subst h1
      simp [List.filter_cons, getProp_cons, h2, ih]
    · simp [List.filter_cons, h1, getProp_cons, ih]

theorem getProp_renameMsg_level (ps : List (Str × Json)) :
    getProp (renameMsg ps) "level".toList = getProp ps "level".toList := by
  unfold renameMsg
  split
  · split_ifs
    · rw [getProp_deleteProp_ne _ _ _ (by decide), getProp_setProp, if_neg (by decide)]
    · rfl
  · rfl

theorem getProp_translateLevel (ps : List (Str × Json)) (q : ℚ)
    (h : getProp ps "level".toList = some (.num q)) :
    getProp (translateLevel ps) "level".toList =
      match levelLabel (.num q) with
      | some label => some (.str label)
      | none => some (.num q) := by
  unfold translateLevel
  rw [h]
  simp only
  by_cases hq : q = 0
  · subst hq
    have hf : (Json.num 0).truthy = false := by simp [Json.truthy]
    have hn : levelLabel (.num 0) = none := by simp [levelLabel]
    rw [if_neg (by simp [hf]), hn]
    exact h
  · have ht : (Json.num q).truthy = true := by simp [Json.truthy, hq]
    rw [if_pos ht]
    cases hl : levelLabel (.num q) with
    | none => exact h
    | some label => simp only [getProp_setProp, if_true]

/-- Counterexample for C7: the line `{"time":{"toString":null},"level":10}` parses
as an object whose `level` is the number 10, yet `new Date(lineObj.time)` throws
inside the `try`, so the body returned is the input line itself, with the
numeric level, and not the re-serialised object with level `TRACE`. -/
theorem parseLine_level_counterexample :
    exampleParse "\x7b\"time\":\x7b\"toString\":null\x7d,\"level\":10\x7d".toList =
      some (.obj [("time".toList, .obj [("toString".toList, .null)]),
        ("level".toList, .num 10)]) ∧
    (parseLine exampleParse exampleStringify 0
      "\x7b\"time\":\x7b\"toString\":null\x7d,\"level\":10\x7d".toList).l =
      "\x7b\"time\":\x7b\"toString\":null\x7d,\"level\":10\x7d".toList ∧
    (parseLine exampleParse exampleStringify 0
      "\x7b\"time\":\x7b\"toString\":null\x7d,\"level\":10\x7d".toList).l ≠
      exampleStringify (.obj [("time".toList, .obj [("toString".toList, .null)]),
        ("level".toList, .str "TRACE".toList)]) :=
  ⟨rfl, by decide, by decide⟩

/-- C7 (amended): for every line that parses as a JSON object whose `level` is a
number `q`. When the `time` property is absent, falsy, or converts to a
primitive without throwing, the body is the serialisation of the object after
the `msg` and `level` blocks, and in that object `level` is `TRACE`, `DEBUG`,
`INFO`, `WARN`, `ERROR` or `FATAL` for `q` = 10, 20, 30, 40, 50 or 60 and the
number `q` for every other `q`. When the conversion of a truthy `time` throws,
the line is returned unchanged, with the ingestion time. -/
theorem parseLine_level_translation (jsonParse : Str → Option Json)
    (jsonStringify : Json → Str) (now : Int) (line : Str) (props : List (Str × Json))
    (q : ℚ) (hp : jsonParse line = some (.obj props))
    (hl : getProp props "level".toList = some (.num q)) :
    ((∀ time, getProp props "time".toList = some time → time.truthy = true →
        toPrimitiveThrows time = false) →
      (parseLine jsonParse jsonStringify now line).l =
        jsonStringify (.obj (translateLevel (renameMsg props))) ∧
      (q = 10 → getProp (translateLevel (renameMsg props)) "level".toList =
        some (.str "TRACE".toList)) ∧
      (q = 20 → getProp (translateLevel (renameMsg props)) "level".toList =
        some (.str "DEBUG".toList)) ∧
      (q = 30 → getProp (translateLevel (renameMsg props)) "level".toList =
        some (.str "INFO".toList)) ∧
      (q = 40 → getProp (translateLevel (renameMsg props)) "level".toList =
        some (.str "WARN".toList)) ∧
      (q = 50 → getProp (translateLevel (renameMsg props)) "level".toList =
        some (.str "ERROR".toList)) ∧
      (q = 60 → getProp (translateLevel (renameMsg props)) "level".toList =
        some (.str "FATAL".toList)) ∧
      (q ≠ 10 → q ≠ 20 → q ≠ 30 → q ≠ 40 → q ≠ 50 → q ≠ 60 →
        getProp (translateLevel (renameMsg props)) "level".toList = some (.num q))) ∧
    (∀ time, getProp props "time".toList = some time → time.truthy = true →
        toPrimitiveThrows time = true →
      (parseLine jsonParse jsonStringify now line).l = line ∧
      (parseLine jsonParse jsonStringify now line).t = .now now) := by
  have hlevel := getProp_translateLevel (renameMsg props) q
    (by rw [getProp_renameMsg_level]; exact hl)
  constructor
  · intro hno
    refine ⟨?_, ?_, ?_, ?_, ?_, ?_, ?_, ?_⟩
    · unfold parseLine
      rw [hp]
      simp only
      cases ht : getProp props "time".toList with
      | none => rfl
      | some time =>
        simp only
        by_cases htr : time.truthy = true
        · rw [if_pos htr, if_neg (by rw [hno time ht htr]; simp)]
        · rw [if_neg htr]
    · intro hq; subst hq; rw [hlevel]; rfl
    · intro hq; subst hq; rw [hlevel]; rfl
    · intro hq; subst hq; rw [hlevel]; rfl
    · intro hq; subst hq; rw [hlevel]; rfl
    · intro hq; subst hq; rw [hlevel]; rfl
    · intro hq; subst hq; rw [hlevel]; rfl
    · intro h1 h2 h3 h4 h5 h6
      rw [hlevel]
      simp [levelLabel, h1, h2, h3, h4, h5, h6]
  · intro time ht htr hthrow
    unfold parseLine
    rw [hp]
    simp only
    rw [ht]
    simp only
    rw [if_pos htr, if_pos hthrow]
    exact ⟨rfl, rfl⟩

/-- Witness for C7: `{"level":30,"msg":"hi"}` becomes
`{"level":"INFO","message":"hi"}`. -/
theorem parseLine_level_translation_witness :
    (parseLine exampleParse exampleStringify 5 "\x7b\"level\":30,\"msg\":\"hi\"\x7d".toList).l =
      exampleStringify (.obj (translateLevel (renameMsg
        [("level".toList, .num 30), ("msg".toList, .str "hi".toList)]))) ∧
    getProp (translateLevel (renameMsg
        [("level".toList, .num 30), ("msg".toList, .str "hi".toList)])) "level".toList =
      some (.str "INFO".toList) :=
  ⟨((parseLine_level_translation exampleParse exampleStringify 5
      "\x7b\"level\":30,\"msg\":\"hi\"\x7d".toList
      [("level".toList, .num 30), ("msg".toList, .str "hi".toList)] 30 rfl rfl).1
      (fun _ h => Option.noConfusion h)).1,
   ((parseLine_level_translation exampleParse exampleStringify 5
      "\x7b\"level\":30,\"msg\":\"hi\"\x7d".toList
      [("level".toList, .num 30), ("msg".toList, .str "hi".toList)] 30 rfl rfl).1
      (fun _ h => Option.noConfusion h)).2.2.2.1 rfl⟩

/-- C8: for every line on which `JSON.parse` throws, `parseLine` returns the
line unchanged as the body and the ingestion time read at the start of the call
as the timestamp. -/
theorem parseLine_invalid_json (jsonParse : Str → Option Json)
    (jsonStringify : Json → Str) (now : Int) (line : Str)
    (h : jsonParse line = none) :
    (parseLine jsonParse jsonStringify now line).l = line ∧
    (parseLine jsonParse jsonStringify now line).t = .now now := by
  unfold parseLine
  rw [h]
  exact ⟨rfl, rfl⟩

/-- Witness for C8: the line `not json {`. -/
theorem parseLine_invalid_json_witness :
    (parseLine exampleParse exampleStringify 1700000000000 "not json \x7b".toList).l =
      "not json \x7b".toList :=
  (parseLine_invalid_json exampleParse exampleStringify 1700000000000
    "not json \x7b".toList rfl).1

/-! ### Numbers and strings -/

theorem isWhiteSpace_digit (c : Char) (h : 48 ≤ c.toNat ∧ c.toNat ≤ 57) :
    isWhiteSpace c = false := by
  unfold isWhiteSpace
  simp only [Bool.or_eq_false_iff, decide_eq_false_iff_not, Bool.and_eq_false_iff]
  refine ⟨⟨⟨⟨⟨⟨⟨⟨⟨⟨⟨⟨⟨⟨?_, ?_⟩, ?_⟩, ?_⟩, ?_⟩, ?_⟩, ?_⟩, ?_⟩, ?_⟩, ?_⟩, ?_⟩, ?_⟩, ?_⟩, ?_⟩, ?_⟩ <;>
    omega

theorem digitValue_digit (c : Char) (h : 48 ≤ c.toNat ∧ c.toNat ≤ 57) :
    digitValue c = some (c.toNat - 48) := by
  unfold digitValue
  rw [if_pos h]

theorem leadingDigits_ne_nil (c : Char) (cs : Str) (h : 48 ≤ c.toNat ∧ c.toNat ≤ 57) :
    leadingDigits 10 (c :: cs) ≠ [] := by
  have hd : c.toNat - 48 < 10 := by omega
  simp [leadingDigits, digitValue_digit c h, hd]

theorem stripSign_digit (c : Char) (cs : Str) (h : 48 ≤ c.toNat ∧ c.toNat ≤ 57) :
    stripSign (c :: cs) = (false, c :: cs) := by
  have hminus : c ≠ '-' := by
    intro e; subst e; revert h; decide
  have hplus : c ≠ '+' := by
    intro e; subst e; revert h; decide
  unfold stripSign
  split
  · next rest heq => exact absurd (List.cons.inj heq).1 hminus
  · next rest heq => exact absurd (List.cons.inj heq).1 hplus
  · rfl

theorem isDecimal_all {s : Str} (h : isDecimal s = true) :
    ∀ c ∈ s, 48 ≤ c.toNat ∧ c.toNat ≤ 57 := by
  simpa [isDecimal] using (Bool.and_eq_true_iff.mp h).2

theorem isDecimal_ne_nil {s : Str} (h : isDecimal s = true) : s ≠ [] := by
  intro e
  simp [e, isDecimal] at h

theorem trim_decimal (s : Str) (h : isDecimal s = true) : trim s = s := by
  have hall := isDecimal_all h
  have hne := isDecimal_ne_nil h
  rw [trim_eq_self_iff]
  constructor
  · cases s with
    | nil => exact absurd rfl hne
    | cons c cs =>
      simp [List.dropWhile_cons, isWhiteSpace_digit c (hall c (by simp))]
  · rw [List.rdropWhile_eq_self_iff]
    intro hne2
    have := isWhiteSpace_digit _ (hall _ (List.getLast_mem hne2))
    simp [this]

theorem takeWhile_decimal (s : Str) (h : ∀ c ∈ s, 48 ≤ c.toNat ∧ c.toNat ≤ 57) :
    s.takeWhile isDecimalDigit = s ∧ s.dropWhile isDecimalDigit = [] := by
  induction s with
  | nil => simp
  | cons c cs ih =>
    have hc : isDecimalDigit c = true := by
      simpa [isDecimalDigit] using h c (by simp)
    obtain ⟨i1, i2⟩ := ih (fun x hx => h x (List.mem_cons_of_mem _ hx))
    simp [List.takeWhile_cons, List.dropWhile_cons, hc, i1, i2]

theorem unsignedDecimalLiteral_decimal (s : Str) (h : isDecimal s = true) :
    unsignedDecimalLiteral s = some (decimalValue s : ℚ) := by
  obtain ⟨h1, h2⟩ := takeWhile_decimal s (isDecimal_all h)
  have hne := isDecimal_ne_nil h
  unfold unsignedDecimalLiteral
  simp [h1, h2, hne]

theorem stringToNumber_decimal (s : Str) (h : isDecimal s = true) :
    stringToNumber s = .finite (decimalValue s) := by
  have hall := isDecimal_all h
  have hne := isDecimal_ne_nil h
  unfold stringToNumber
  rw [trim_decimal s h]
  split
  · exact absurd rfl hne
  · exact absurd (hall 'x' (by simp)) (by decide)
  · exact absurd (hall 'X' (by simp)) (by decide)
  · exact absurd (hall 'o' (by simp)) (by decide)
  · exact absurd (hall 'O' (by simp)) (by decide)
  · exact absurd (hall 'b' (by simp)) (by decide)
  · exact absurd (hall 'B' (by simp)) (by decide)
  · cases s with
    | nil => exact absurd rfl hne
    | cons c cs =>
      have hc := hall c (by simp)
      rw [stripSign_digit c cs hc]
      have hI : c :: cs ≠ "Infinity".toList := by
        intro e
        have : c = 'I' := (List.cons.inj e).1
        subst this
        revert hc
        decide
      simp only [hI, if_false, unsignedDecimalLiteral_decimal _ h, Bool.false_eq_true]

theorem Scalar.ge_num_num (a b : Nat) : Scalar.ge (.num a) (.num b) = decide (b ≤ a) := by
  by_cases h : b ≤ a
  · have h2 : ¬ a < b := by omega
    simp [Scalar.ge, Scalar.toNumber, JsNumber.ge, JsNumber.lessThan, h, h2]
  · have h2 : a < b := by omega
    simp [Scalar.ge, Scalar.toNumber, JsNumber.ge, JsNumber.lessThan, h, h2]

theorem Scalar.ge_str_num (s : Str) (b : Nat) (h : isDecimal s = true) :
    Scalar.ge (.str s) (.num b) = decide (b ≤ decimalValue s) := by
  by_cases h2 : b ≤ decimalValue s
  · have h3 : ¬ decimalValue s < b := by omega
    simp [Scalar.ge, Scalar.toNumber, JsNumber.ge, JsNumber.lessThan,
      stringToNumber_decimal s h, h2, h3]
  · have h3 : decimalValue s < b := by omega
    simp [Scalar.ge, Scalar.toNumber, JsNumber.ge, JsNumber.lessThan,
      stringToNumber_decimal s h, h2, h3]

theorem Scalar.add_num_num (a b : Nat) : Scalar.add (.num a) (.num b) = .num (a + b) := rfl

/-! ### The tail reader -/

theorem handleDataSeq_spec (ds : List Chunk) (r : Reader) :
    (handleDataSeq ds r).1.offset = r.offset + (ds.map List.length).sum ∧
    (handleDataSeq ds r).2 = ds.map Effect.data := by
  induction ds generalizing r with
  | nil => simp [handleDataSeq]
  | cons d ds ih =>
    obtain ⟨h1, h2⟩ := ih (handleData d r).1
    simp only [handleDataSeq, h1, h2, List.map_cons, List.sum_cons]
    constructor
    · simp only [handleData]
      omega
    · simp [handleData]

/-- C3: `_handleData` on a chunk `d` adds `length(d)` to the offset, sets the
idle accumulator to 0 and emits exactly `d`; over a sequence of data events the
offset grows by the sum of the chunk lengths and the chunks are emitted in
order, each once, so the emitted bytes are their concatenation. -/
theorem handleData_offset_and_emission (r : Reader) (d : Chunk) (ds : List Chunk) :
    (handleData d r).1.offset = r.offset + d.length ∧
    (handleData d r).1.idle = 0 ∧
    (handleData d r).2 = [.data d] ∧
    (handleDataSeq ds r).1.offset = r.offset + (ds.map List.length).sum ∧
    (handleDataSeq ds r).2 = ds.map Effect.data ∧
    emittedData (handleDataSeq ds r).2 = ds.flatten ∧
    (emittedData (handleDataSeq ds r).2).length = (handleDataSeq ds r).1.offset - r.offset := by
  obtain ⟨h1, h2⟩ := handleDataSeq_spec ds r
  have h3 : ∀ l : List Chunk, emittedData (l.map Effect.data) = l.flatten := by
    intro l
    induction l with
    | nil => rfl
    | cons c cs ih => simp [emittedData, ih]
  refine ⟨rfl, rfl, rfl, h1, h2, ?_, ?_⟩
  · rw [h2, h3]
  · rw [h2, h3, h1, List.length_flatten]
    simp

/-- C4: when the sizing `stat` succeeds on a reader that is neither paused nor
reading (as at first attach), the read is opened at offset 0 if the size is
below tailhead-size and the age below tailhead-age, and at the file size
otherwise. -/
theorem getFileSize_start_offset (now : Int) (stats : Stats) (r : Reader)
    (hp : r.paused = false) (hr : r.reading = false) :
    ((stats.size < r.tailheadsize ∧ now - stats.birthtime < (r.tailheadage : Int)) →
      (getFileSizeAndReadUntilEofCallback now (.ok stats) r).1.offset = 0 ∧
      (getFileSizeAndReadUntilEofCallback now (.ok stats) r).2 = [.createReadStream 0]) ∧
    (¬ (stats.size < r.tailheadsize ∧ now - stats.birthtime < (r.tailheadage : Int)) →
      (getFileSizeAndReadUntilEofCallback now (.ok stats) r).1.offset = stats.size ∧
      (getFileSizeAndReadUntilEofCallback now (.ok stats) r).2 = [.createReadStream stats.size]) ∧
    (getFileSizeAndReadUntilEofCallback now (.ok stats) r).1.reading = true ∧
    (getFileSizeAndReadUntilEofCallback now (.ok stats) r).1.stream =
      some { start := (getFileSizeAndReadUntilEofCallback now (.ok stats) r).1.offset, paused := false } := by
  by_cases h : stats.size < r.tailheadsize ∧ now - stats.birthtime < (r.tailheadage : Int)
  · simp [getFileSizeAndReadUntilEofCallback, h, readFromOffsetUntilEof, hp, hr]
  · simp only [getFileSizeAndReadUntilEofCallback, if_neg h, readFromOffsetUntilEof, hp, hr]
    simp [h]

/-- Witness for C4: a 100-byte file created 5 seconds ago is read from 0 with
the default thresholds. -/
theorem getFileSize_start_offset_witness :
    (getFileSizeAndReadUntilEofCallback 1700000005000 (.ok { size := 100, birthtime := 1700000000000 })
      { readable := true, stream := none, offset := 0, interval := 1000,
        timeout := 3600000, watchinterval := 1000, tailheadsize := 8192,
        tailheadage := 60000, idle := 0, reading := false, paused := false,
        ended := false, watching := false }).2 = [.createReadStream 0] :=
  ((getFileSize_start_offset 1700000005000 { size := 100, birthtime := 1700000000000 }
      { readable := true, stream := none, offset := 0, interval := 1000,
        timeout := 3600000, watchinterval := 1000, tailheadsize := 8192,
        tailheadage := 60000, idle := 0, reading := false, paused := false,
        ended := false, watching := false } rfl rfl).1 (by decide)).2

/-- C5: a watch poll on a readable reader issues one `stat`; when the reported
size `S` is below the tracked offset, one `truncate` carrying `S` is emitted
and the offset becomes 0 if `S` is below tailhead-size and `S` otherwise; when
`S` is not below the offset nothing is emitted and the reader is unchanged. The
offset after the poll never exceeds `S`. -/
theorem watchFile_truncation (r : Reader) (stats : Stats) :
    (r.readable = true → watchFile r = (r, [.stat])) ∧
    (stats.size < r.offset →
      (watchFileCallback (.ok stats) r).2 =
        [.truncate stats.size, .retryWatch r.watchinterval] ∧
      (watchFileCallback (.ok stats) r).1 =
        { r with offset := if stats.size < r.tailheadsize then 0 else stats.size }) ∧
    (r.offset ≤ stats.size →
      watchFileCallback (.ok stats) r = (r, [.retryWatch r.watchinterval])) ∧
    (watchFileCallback (.ok stats) r).1.offset ≤ stats.size := by
  refine ⟨?_, ?_, ?_, ?_⟩
  · intro h
    simp [watchFile, h]
  · intro h
    by_cases h2 : stats.size < r.tailheadsize <;> simp [watchFileCallback, h, h2]
  · intro h
    have : ¬ stats.size < r.offset := by omega
    simp [watchFileCallback, this]
  · by_cases h : stats.size < r.offset
    · by_cases h2 : stats.size < r.tailheadsize <;> simp [watchFileCallback, h, h2]
    · simp only [watchFileCallback, if_neg h]
      omega

/-- Witness for C5: offset 20000 and a file truncated to 9000 bytes. -/
theorem watchFile_truncation_witness :
    (watchFileCallback (.ok { size := 9000, birthtime := 0 })
      { readable := true, stream := none, offset := 20000, interval := 1000,
        timeout := 3600000, watchinterval := 1000, tailheadsize := 8192,
        tailheadage := 60000, idle := 0, reading := false, paused := false,
        ended := false, watching := true }).2 = [.truncate 9000, .retryWatch 1000] :=
  ((watchFile_truncation
      { readable := true, stream := none, offset := 20000, interval := 1000,
        timeout := 3600000, watchinterval := 1000, tailheadsize := 8192,
        tailheadage := 60000, idle := 0, reading := false, paused := false,
        ended := false, watching := true }
      { size := 9000, birthtime := 0 }).2.1 (by decide)).1

/-- For a reader whose idle accumulator and timeout are numbers, `_hasTimedOut()`
is `idle >= timeout`. -/
theorem hasTimedOut_num (r : Reader) (a T : Nat) (hi : r.idle = .num a)
    (ht : r.timeout = .num T) : hasTimedOut r = decide (T ≤ a) := by
  unfold hasTimedOut
  rw [hi, ht, Scalar.ge_num_num]

theorem handleError_enoent (e : FsError) (r : Reader)
    (he : e.code = DOES_NOT_EXIST_ERROR) (hb : hasTimedOut r = false) :
    handleError e r =
      if r.readable then
        ({ r with reading := false, readable := false, offset := 0,
                  idle := r.idle.add r.interval }, [.rename, .retryRead r.interval])
      else
        ({ r with reading := false, idle := r.idle.add r.interval },
          [.retryRead r.interval]) := by
  have hb2 : r.idle.ge r.timeout = false := hb
  cases hr : r.readable <;>
    simp [handleError, hasTimedOut, hb2, he, hr, retryInInterval]

theorem readFromOffsetUntilEof_none_fields (r : Reader) :
    (readFromOffsetUntilEof none r).1.readable = r.readable ∧
    (readFromOffsetUntilEof none r).1.offset = r.offset ∧
    (readFromOffsetUntilEof none r).1.idle = r.idle ∧
    (readFromOffsetUntilEof none r).1.interval = r.interval ∧
    (readFromOffsetUntilEof none r).1.timeout = r.timeout ∧
    (readFromOffsetUntilEof none r).2.count .rename = 0 ∧
    (readFromOffsetUntilEof none r).2.count (.retryRead r.interval) = 0 := by
  unfold readFromOffsetUntilEof
  simp only
  split_ifs <;> simp

theorem errorRun_invariant (e : FsError) (r : Reader) (k i a T : Nat)
    (he : e.code = DOES_NOT_EXIST_ERROR) (hread : r.readable = true)
    (hint : r.interval = .num i) (hidle : r.idle = .num a) (hto : r.timeout = .num T)
    (hbudget : a + k * i < T) :
    (errorRun e k r).1.readable = false ∧
    (errorRun e k r).1.offset = 0 ∧
    (errorRun e k r).1.idle = .num (a + (k + 1) * i) ∧
    (errorRun e k r).1.interval = .num i ∧
    (errorRun e k r).1.timeout = .num T ∧
    (errorRun e k r).2.count .rename = 1 ∧
    (errorRun e k r).2.count (.retryRead (.num i)) = k + 1 ∧
    (errorRun e k r).2.head? = some .rename := by
  induction k with
  | zero =>
    have hb : hasTimedOut r = false := by
      rw [hasTimedOut_num r a T hidle hto]
      simpa using hbudget
    simp only [errorRun, handleError_enoent e r he hb, hread, if_true, hint, hidle, hto]
    simp [Scalar.add]
  | succ k ih =>
    have hb : a + k * i < T := by
      have : k * i ≤ (k + 1) * i := Nat.mul_le_mul_right _ (Nat.le_succ k)
      omega
    obtain ⟨h1, h2, h3, h4, h5, h6, h7, h8⟩ := ih hb
    obtain ⟨g1, g2, g3, g4, g5, g6, g7⟩ :=
      readFromOffsetUntilEof_none_fields (errorRun e k r).1
    have hb2 : hasTimedOut (readFromOffsetUntilEof none (errorRun e k r).1).1 = false := by
      rw [hasTimedOut_num _ (a + (k + 1) * i) T (by rw [g3, h3]) (by rw [g5, h5])]
      simpa using hbudget
    rw [h4] at g7
    simp only [errorRun]
    rw [handleError_enoent e _ he hb2, g1, h1]
    simp only [Bool.false_eq_true, if_false, g2, g3, g4, g5, h2, h3, h4, h5]
    refine ⟨trivial, trivial, ?_, trivial, trivial, ?_, ?_, ?_⟩
    · simp only [Scalar.add]
      congr 1
      ring
    · simp [List.count_append, h6, g6]
    · simp [List.count_append, h7, g7]
    · cases hl : (errorRun e k r).2 with
      | nil => rw [hl] at h8; simp at h8
      | cons x xs => rw [hl] at h8; simpa using h8

/-- A readable reader whose interval, timeout and idle accumulator are numbers,
hit by a run of `k + 1` consecutive not-found read errors during which the idle
budget is not exhausted. Exactly one `rename` is emitted, as the first effect;
after every error of the run the offset is 0 and the idle accumulator has grown
by one read interval per error; every error schedules one retry. A data event
after the run marks the reader readable, so the next not-found error emits
`rename` again. -/
theorem errorRun_numeric_interval (e : FsError) (r : Reader) (k i a T : Nat) (d : Chunk)
    (he : e.code = DOES_NOT_EXIST_ERROR) (hread : r.readable = true)
    (hint : r.interval = .num i) (hidle : r.idle = .num a) (hto : r.timeout = .num T)
    (hbudget : a + k * i < T) :
    (errorRun e k r).2.count .rename = 1 ∧
    (errorRun e k r).2.head? = some .rename ∧
    (errorRun e k r).2.count (.retryRead (.num i)) = k + 1 ∧
    (∀ j, j ≤ k → (errorRun e j r).1.offset = 0 ∧
      (errorRun e j r).1.idle = .num (a + (j + 1) * i) ∧
      (errorRun e j r).1.readable = false) ∧
    (handleData d (errorRun e k r).1).1.readable = true ∧
    (handleError e (handleData d (errorRun e k r).1).1).2 =
      [.rename, .retryRead (.num i)] := by
  obtain ⟨h1, h2, h3, h4, h5, h6, h7, h8⟩ :=
    errorRun_invariant e r k i a T he hread hint hidle hto hbudget
  refine ⟨h6, h8, h7, ?_, rfl, ?_⟩
  · intro j hj
    have hb : a + j * i < T := by
      have : j * i ≤ k * i := Nat.mul_le_mul_right _ hj
      omega
    obtain ⟨a1, a2, a3, _⟩ := errorRun_invariant e r j i a T he hread hint hidle hto hb
    exact ⟨a2, a3, a1⟩
  · have hpos : 0 < T := by omega
    have hb : hasTimedOut (handleData d (errorRun e k r).1).1 = false := by
      rw [hasTimedOut_num _ 0 T rfl (by simp only [handleData, h5])]
      have : ¬ T ≤ 0 := by omega
      simp [this]
    rw [handleError_enoent e _ he hb]
    simp [handleData, h4]

theorem handleError_timed_out (e : FsError) (r : Reader) (h : hasTimedOut r = true) :
    handleError e r = ({ r with reading := false }, [.nofile e]) := by
  have h2 : r.idle.ge r.timeout = true := h
  simp [handleError, hasTimedOut, h2]

/-- C6: the environment sets `TRS_READ_INTERVAL=1000` and the reader of
`tail(path, 500)` gets three not-found read errors in a row. The read interval
is the string `1000`, so `_idle += _interval` gives the strings `01000` and
`010001000` after the first and the second error, not the numbers 1000 and 2000;
the third error finds `'010001000' >= 3600000` and emits `nofile`. -/
theorem errorRun_env_interval_concatenates :
    (tail { emptyEnv with TRS_READ_INTERVAL := some "1000".toList } (.offset 500)
      { interval := none, timeout := none, watchinterval := none,
        tailheadsize := none, tailheadage := none }).1.interval = .str "1000".toList ∧
    (tail { emptyEnv with TRS_READ_INTERVAL := some "1000".toList } (.offset 500)
      { interval := none, timeout := none, watchinterval := none,
        tailheadsize := none, tailheadage := none }).1.timeout = .num 3600000 ∧
    (errorRun { code := "ENOENT".toList } 0
      (tail { emptyEnv with TRS_READ_INTERVAL := some "1000".toList } (.offset 500)
        { interval := none, timeout := none, watchinterval := none,
          tailheadsize := none, tailheadage := none }).1).1.idle = .str "01000".toList ∧
    (errorRun { code := "ENOENT".toList } 1
      (tail { emptyEnv with TRS_READ_INTERVAL := some "1000".toList } (.offset 500)
        { interval := none, timeout := none, watchinterval := none,
          tailheadsize := none, tailheadage := none }).1).1.idle = .str "010001000".toList ∧
    (errorRun { code := "ENOENT".toList } 2
      (tail { emptyEnv with TRS_READ_INTERVAL := some "1000".toList } (.offset 500)
        { interval := none, timeout := none, watchinterval := none,
          tailheadsize := none, tailheadage := none }).1).2 =
      [.rename, .retryRead (.str "1000".toList), .createReadStream 0,
       .retryRead (.str "1000".toList), .createReadStream 0,
       .nofile { code := "ENOENT".toList }] := by
  have f0 : (tail { emptyEnv with TRS_READ_INTERVAL := some "1000".toList } (.offset 500)
      { interval := none, timeout := none, watchinterval := none,
        tailheadsize := none, tailheadage := none }).1 =
      ⟨true, some ⟨500, false⟩, 500, .str "1000".toList, 3600000, 1000, 8192, 60000, 0,
        true, false, false, false⟩ := by decide
  have t1 : hasTimedOut
      ⟨true, some ⟨500, false⟩, 500, .str "1000".toList, 3600000, 1000, 8192, 60000, 0,
        true, false, false, false⟩ = false := by decide
  have f1 : handleError { code := "ENOENT".toList }
      ⟨true, some ⟨500, false⟩, 500, .str "1000".toList, 3600000, 1000, 8192, 60000, 0,
        true, false, false, false⟩ =
      (⟨false, some ⟨500, false⟩, 0, .str "1000".toList, 3600000, 1000, 8192, 60000,
        .str "01000".toList, false, false, false, false⟩,
        [.rename, .retryRead (.str "1000".toList)]) := by
    rw [handleError_enoent { code := "ENOENT".toList } _ rfl t1]
    decide
  have f2 : readFromOffsetUntilEof none
      ⟨false, some ⟨500, false⟩, 0, .str "1000".toList, 3600000, 1000, 8192, 60000,
        .str "01000".toList, false, false, false, false⟩ =
      (⟨false, some ⟨0, false⟩, 0, .str "1000".toList, 3600000, 1000, 8192, 60000,
        .str "01000".toList, true, false, false, false⟩, [.createReadStream 0]) := by decide
  have t3 : hasTimedOut
      ⟨false, some ⟨0, false⟩, 0, .str "1000".toList, 3600000, 1000, 8192, 60000,
        .str "01000".toList, true, false, false, false⟩ = false := by
    show Scalar.ge (.str "01000".toList) (.num 3600000) = false
    rw [Scalar.ge_str_num _ _ (by decide)]
    decide
  have f3 : handleError { code := "ENOENT".toList }
      ⟨false, some ⟨0, false⟩, 0, .str "1000".toList, 3600000, 1000, 8192, 60000,
        .str "01000".toList, true, false, false, false⟩ =
      (⟨false, some ⟨0, false⟩, 0, .str "1000".toList, 3600000, 1000, 8192, 60000,
        .str "010001000".toList, false, false, false, false⟩,
        [.retryRead (.str "1000".toList)]) := by
    rw [handleError_enoent { code := "ENOENT".toList } _ rfl t3]
    decide
  have f4 : readFromOffsetUntilEof none
      ⟨false, some ⟨0, false⟩, 0, .str "1000".toList, 3600000, 1000, 8192, 60000,
        .str "010001000".toList, false, false, false, false⟩ =
      (⟨false, some ⟨0, false⟩, 0, .str "1000".toList, 3600000, 1000, 8192, 60000,
        .str "010001000".toList, true, false, false, false⟩, [.createReadStream 0]) := by
    decide
  have t5 : hasTimedOut
      ⟨false, some ⟨0, false⟩, 0, .str "1000".toList, 3600000, 1000, 8192, 60000,
        .str "010001000".toList, true, false, false, false⟩ = true := by
    show Scalar.ge (.str "010001000".toList) (.num 3600000) = true
    rw [Scalar.ge_str_num _ _ (by decide)]
    decide
  have f5 := handleError_timed_out { code := "ENOENT".toList } _ t5
  refine ⟨by decide, by decide, ?_, ?_, ?_⟩
  · simp only [errorRun, f0, f1]
  · simp only [errorRun, f0, f1, f2, f3]
  · simp only [errorRun, f0, f1, f2, f3, f4, f5]
    rfl

/-! ### `processChunk` -/

theorem processChunk_obj (host : Host) (jsonParse : Str → Option Json) (now : Int) (text : Str)
    (props : List (Str × Json)) (hp : jsonParse text = some (.obj props)) :
    processChunk host jsonParse now text =
      match convertTimestamp host (readProp (.obj props) "__REALTIME_TIMESTAMP".toList),
        andParseInt host (readProp (.obj props) "_PID".toList),
        andParseInt host (readProp (.obj props) "PRIORITY".toList) with
      | .ok t, .ok pid, .ok prival =>
        .ok { t := t
              l := readProp (.obj props) "MESSAGE".toList
              f := orElse (orElse (readProp (.obj props) "CONTAINER_NAME".toList)
                    (readProp (.obj props) "SYSLOG_IDENTIFIER".toList))
                    (.val (.str "UNKNOWN_SYSTEMD_APP".toList))
              pid := pid
              prival := prival
              containerid := readProp (.obj props) "CONTAINER_ID_FULL".toList }
      | .error e, _, _ => .error e
      | .ok _, .error e, _ => .error e
      | .ok _, .ok _, .error e => .error e := by
  unfold processChunk
  rw [hp]
  simp only
  cases convertTimestamp host (readProp (.obj props) "__REALTIME_TIMESTAMP".toList) with
  | error e => rfl
  | ok t =>
    cases andParseInt host (readProp (.obj props) "_PID".toList) with
    | error e => rfl
    | ok pid =>
      cases andParseInt host (readProp (.obj props) "PRIORITY".toList) with
      | error e => rfl
      | ok prival => rfl

theorem stripRadixPrefix_decimal (s : Str)
    (h : ∀ c ∈ s, 48 ≤ c.toNat ∧ c.toNat ≤ 57) : stripRadixPrefix s = (10, s) := by
  unfold stripRadixPrefix
  split
  · next rest =>
    exact absurd (h 'x' (by simp)) (by decide)
  · next rest =>
    exact absurd (h 'X' (by simp)) (by decide)
  · rfl

theorem parseIntString_decimal (host : Host) (s : Str) (h : isDecimal s = true) :
    parseIntString host s =
      if (decimalValue s : ℚ) < maxExact then .finite (decimalValue s)
      else host.parseInt (.str s) := by
  cases s with
  | nil => simp [isDecimal] at h
  | cons c cs =>
    have hall : ∀ c' ∈ c :: cs, 48 ≤ c'.toNat ∧ c'.toNat ≤ 57 := isDecimal_all h
    have hc := hall c (by simp)
    have hne := leadingDigits_ne_nil c cs hc
    have hemp : (leadingDigits 10 (c :: cs)).isEmpty = false := by
      cases hl : leadingDigits 10 (c :: cs) with
      | nil => exact absurd hl hne
      | cons a l => rfl
    unfold parseIntString
    have hdrop : List.dropWhile isWhiteSpace (c :: cs) = c :: cs := by
      simp [List.dropWhile_cons, isWhiteSpace_digit c hc]
    rw [hdrop]
    simp only
    rw [stripSign_digit c cs hc]
    simp only [Bool.false_eq_true, if_false]
    rw [stripRadixPrefix_decimal (c :: cs) hall]
    simp only [hemp, Bool.false_eq_true, if_false, decimalValue]

theorem truncQ_natCast (n : ℕ) : truncQ (n : ℚ) = (n : ℤ) := by
  have h0 : (0 : ℚ) ≤ (n : ℚ) := by positivity
  unfold truncQ
  rw [if_pos h0]
  exact Int.floor_natCast n

theorem truncQ_natCast_div (n : ℕ) : truncQ ((n : ℚ) / 1000) = ((n / 1000 : ℕ) : ℤ) := by
  have h0 : (0 : ℚ) ≤ (n : ℚ) / 1000 := by positivity
  unfold truncQ
  rw [if_pos h0]
  have := Rat.floor_natCast_div_natCast n 1000
  simpa using this

theorem parseIntNumber_natCast (host : Host) (n : ℕ) (h : (n : ℚ) < maxExact) :
    parseIntNumber host (n : ℚ) = .finite (n : ℚ) := by
  unfold parseIntNumber
  by_cases h0 : (n : ℚ) = 0
  · rw [if_pos h0, h0]
  · rw [if_neg h0]
    have hpos : (1 : ℚ) ≤ (n : ℚ) := by
      have : n ≠ 0 := by
        intro e
        exact h0 (by simp [e])
      exact_mod_cast Nat.one_le_iff_ne_zero.mpr this
    have habs : |(n : ℚ)| = (n : ℚ) := abs_of_nonneg (by positivity)
    have hrange : (1 : ℚ) / 1000000 ≤ |(n : ℚ)| ∧ |(n : ℚ)| < 1000000000000000000000 := by
      rw [habs]
      unfold maxExact at h
      constructor <;> linarith
    rw [if_pos hrange, truncQ_natCast]
    norm_cast

theorem parseIntNumber_quotient (host : Host) (n : ℕ) (h1 : 10000000000000 < n)
    (h2 : (n : ℚ) < maxExact) :
    parseIntNumber host ((n : ℚ) / 1000) = .finite ((n / 1000 : ℕ) : ℚ) := by
  have hn : (10000000000000 : ℚ) < n := by exact_mod_cast h1
  have hpos : (0 : ℚ) < (n : ℚ) / 1000 := by positivity
  have hne : (n : ℚ) / 1000 ≠ 0 := ne_of_gt hpos
  have habs : |(n : ℚ) / 1000| = (n : ℚ) / 1000 := abs_of_pos hpos
  unfold parseIntNumber
  rw [if_neg hne, habs]
  have hrange : (1 : ℚ) / 1000000 ≤ (n : ℚ) / 1000 ∧
      (n : ℚ) / 1000 < 1000000000000000000000 := by
    unfold maxExact at h2
    constructor
    · rw [div_le_div_iff₀ (by norm_num) (by norm_num)]
      linarith
    · rw [div_lt_iff₀ (by norm_num)]
      linarith
  rw [if_pos hrange, truncQ_natCast_div]
  norm_cast

theorem gt_finite (a : ℚ) :
    JsNumber.gt (.finite a) (.finite 10000000000000) = decide (10000000000000 < a) := by
  simp [JsNumber.gt, JsNumber.lessThan]

theorem convertTimestamp_decimal (host : Host) (s : Str) (h : isDecimal s = true)
    (hlt : (decimalValue s : ℚ) < maxExact) :
    convertTimestamp host (.val (.str s)) =
      .ok (if 10000000000000 < decimalValue s
        then .val (.num ((decimalValue s / 1000 : ℕ) : ℚ)) else .val (.str s)) := by
  have htruthy : (Json.str s).truthy = true := by
    cases s with
    | nil => simp [isDecimal] at h
    | cons c cs => simp [Json.truthy]
  have hparse : parseInt host (.str s) = .ok (.finite (decimalValue s)) := by
    simp [parseInt, toPrimitiveThrows, parseIntString_decimal host s h, hlt]
  unfold convertTimestamp
  simp only [htruthy, if_true, hparse, gt_finite]
  by_cases hbig : 10000000000000 < decimalValue s
  · have hq : (10000000000000 : ℚ) < (decimalValue s : ℚ) := by exact_mod_cast hbig
    have hdiv : divideBy1000 host (.str s) = .finite ((decimalValue s : ℚ) / 1000) := by
      simp [divideBy1000, h, hlt]
    rw [if_pos (by simpa using hq), if_pos hbig, hdiv]
    simp only [parseIntOfNumber, parseIntNumber_quotient host _ hbig hlt, JsNumber.toValue]
  · have hq : ¬ (10000000000000 : ℚ) < (decimalValue s : ℚ) := by
      intro hc
      exact hbig (by exact_mod_cast hc)
    rw [if_neg (by simpa using hq), if_neg hbig]

theorem convertTimestamp_natural (host : Host) (n : ℕ) (hlt : (n : ℚ) < maxExact) :
    convertTimestamp host (.val (.num (n : ℚ))) =
      .ok (if 10000000000000 < n
        then .val (.num ((n / 1000 : ℕ) : ℚ)) else .val (.num (n : ℚ))) := by
  by_cases h0 : n = 0
  · subst h0
    simp [convertTimestamp, Json.truthy]
  · have htruthy : (Json.num (n : ℚ)).truthy = true := by
      simp [Json.truthy, h0]
    have hparse : parseInt host (.num (n : ℚ)) = .ok (.finite (n : ℚ)) := by
      simp [parseInt, toPrimitiveThrows, parseIntNumber_natCast host n hlt]
    unfold convertTimestamp
    simp only [htruthy, if_true, hparse, gt_finite]
    by_cases hbig : 10000000000000 < n
    · have hq : (10000000000000 : ℚ) < (n : ℚ) := by exact_mod_cast hbig
      have habs : |(n : ℚ)| < maxExact := by
        rw [abs_of_nonneg (by positivity)]
        exact hlt
      have hint : (n : ℚ).isInt = true := by
        simp [Rat.isInt]
      have hdiv : divideBy1000 host (.num (n : ℚ)) = .finite ((n : ℚ) / 1000) := by
        unfold divideBy1000
        simp only
        rw [if_pos ⟨hint, habs⟩]
      rw [if_pos (by simpa using hq), if_pos hbig, hdiv]
      simp only [parseIntOfNumber, parseIntNumber_quotient host _ hbig hlt, JsNumber.toValue]
    · have hq : ¬ (10000000000000 : ℚ) < (n : ℚ) := by
        intro hc
        exact hbig (by exact_mod_cast hc)
      rw [if_neg (by simpa using hq), if_neg hbig]

theorem convertTimestamp_falsy (host : Host) (v : Json) (h : v.truthy = false) :
    convertTimestamp host (.val v) = .ok (.val v) := by
  simp [convertTimestamp, h]

theorem convertTimestamp_small (host : Host) (v : Json) (n : JsNumber)
    (h : parseInt host v = .ok n) (hgt : n.gt (.finite 10000000000000) = false) :
    convertTimestamp host (.val v) = .ok (.val v) := by
  unfold convertTimestamp
  simp only [h, hgt, Bool.false_eq_true, if_false]
  split_ifs <;> rfl

theorem parseInt_error (host : Host) (v : Json) (h : toPrimitiveThrows v = true) :
    parseInt host v = .error .throws := by
  simp [parseInt, h]

theorem parseInt_ok (host : Host) (v : Json) (h : toPrimitiveThrows v = false) :
    ∃ n, parseInt host v = .ok n := by
  unfold parseInt
  rw [if_neg (by simp [h])]
  cases v <;> exact ⟨_, rfl⟩

theorem andParseInt_throws (host : Host) (x : JsValue) :
    (conversionThrows x = true → andParseInt host x = .error .throws) ∧
    (conversionThrows x = false → ∃ v, andParseInt host x = .ok v) := by
  cases x with
  | undefined => exact ⟨fun h => by simp [conversionThrows] at h, fun _ => ⟨_, rfl⟩⟩
  | nan => exact ⟨fun h => by simp [conversionThrows] at h, fun _ => ⟨_, rfl⟩⟩
  | infinity b => exact ⟨fun h => by simp [conversionThrows] at h, fun _ => ⟨_, rfl⟩⟩
  | val v =>
    constructor
    · intro h
      simp only [conversionThrows, Bool.and_eq_true] at h
      simp [andParseInt, h.1, parseInt_error host v h.2]
    · intro h
      simp only [conversionThrows, Bool.and_eq_false_iff] at h
      unfold andParseInt
      simp only
      by_cases ht : v.truthy = true
      · rw [if_pos ht]
        have hthrow : toPrimitiveThrows v = false := by
          rcases h with h | h
          · rw [ht] at h; cases h
          · exact h
        obtain ⟨n, hn⟩ := parseInt_ok host v hthrow
        rw [hn]
        exact ⟨_, rfl⟩
      · rw [if_neg ht]
        exact ⟨_, rfl⟩

theorem convertTimestamp_throws (host : Host) (x : JsValue) :
    (conversionThrows x = true → convertTimestamp host x = .error .throws) ∧
    (conversionThrows x = false → ∃ v, convertTimestamp host x = .ok v) := by
  cases x with
  | undefined => exact ⟨fun h => by simp [conversionThrows] at h, fun _ => ⟨_, rfl⟩⟩
  | nan => exact ⟨fun h => by simp [conversionThrows] at h, fun _ => ⟨_, rfl⟩⟩
  | infinity b => exact ⟨fun h => by simp [conversionThrows] at h, fun _ => ⟨_, rfl⟩⟩
  | val v =>
    constructor
    · intro h
      simp only [conversionThrows, Bool.and_eq_true] at h
      simp [convertTimestamp, h.1, parseInt_error host v h.2]
    · intro h
      simp only [conversionThrows, Bool.and_eq_false_iff] at h
      unfold convertTimestamp
      simp only
      by_cases ht : v.truthy = true
      · rw [if_pos ht]
        have hthrow : toPrimitiveThrows v = false := by
          rcases h with h | h
          · rw [ht] at h; cases h
          · exact h
        obtain ⟨n, hn⟩ := parseInt_ok host v hthrow
        rw [hn]
        simp only
        split_ifs <;> exact ⟨_, rfl⟩
      · rw [if_neg ht]
        exact ⟨_, rfl⟩

theorem toValue_ne_undefined (n : JsNumber) : n.toValue ≠ .undefined := by
  cases n <;> simp [JsNumber.toValue]

theorem convertTimestamp_val (host : Host) (v : Json) (t : JsValue)
    (h : convertTimestamp host (.val v) = .ok t) :
    t ≠ .undefined ∧ (t = .val v ∨ ∃ n : JsNumber, t = n.toValue) := by
  unfold convertTimestamp at h
  simp only at h
  split_ifs at h with h1
  · split at h
    · cases h
    · split_ifs at h
      · have := Except.ok.inj h
        subst this
        exact ⟨toValue_ne_undefined _, Or.inr ⟨_, rfl⟩⟩
      · have := Except.ok.inj h
        subst this
        exact ⟨by simp, Or.inl rfl⟩
  · have := Except.ok.inj h
    subst this
    exact ⟨by simp, Or.inl rfl⟩

theorem processChunk_ok_fields (host : Host) (jsonParse : Str → Option Json) (now : Int)
    (text : Str) (props : List (Str × Json)) (hp : jsonParse text = some (.obj props))
    (r : JournalRecord) (h : processChunk host jsonParse now text = .ok r) :
    convertTimestamp host (readProp (.obj props) "__REALTIME_TIMESTAMP".toList) = .ok r.t ∧
    r.l = readProp (.obj props) "MESSAGE".toList ∧
    r.f = orElse (orElse (readProp (.obj props) "CONTAINER_NAME".toList)
            (readProp (.obj props) "SYSLOG_IDENTIFIER".toList))
            (.val (.str "UNKNOWN_SYSTEMD_APP".toList)) := by
  rw [processChunk_obj host jsonParse now text props hp] at h
  cases h1 : convertTimestamp host (readProp (.obj props) "__REALTIME_TIMESTAMP".toList) with
  | error e => rw [h1] at h; cases h
  | ok t =>
    cases h2 : andParseInt host (readProp (.obj props) "_PID".toList) with
    | error e => rw [h1, h2] at h; cases h
    | ok pid =>
      cases h3 : andParseInt host (readProp (.obj props) "PRIORITY".toList) with
      | error e => rw [h1, h2, h3] at h; cases h
      | ok prival =>
        rw [h1, h2, h3] at h
        cases h
        exact ⟨rfl, rfl, rfl⟩

theorem processChunk_returns_iff (host : Host) (jsonParse : Str → Option Json) (now : Int)
    (text : Str) (props : List (Str × Json)) (hp : jsonParse text = some (.obj props)) :
    (∃ r, processChunk host jsonParse now text = .ok r) ↔
      (conversionThrows (readProp (.obj props) "__REALTIME_TIMESTAMP".toList) = false ∧
        conversionThrows (readProp (.obj props) "_PID".toList) = false ∧
        conversionThrows (readProp (.obj props) "PRIORITY".toList) = false) := by
  rw [processChunk_obj host jsonParse now text props hp]
  have c1 := convertTimestamp_throws host (readProp (.obj props) "__REALTIME_TIMESTAMP".toList)
  have c2 := andParseInt_throws host (readProp (.obj props) "_PID".toList)
  have c3 := andParseInt_throws host (readProp (.obj props) "PRIORITY".toList)
  cases h1 : conversionThrows (readProp (.obj props) "__REALTIME_TIMESTAMP".toList)
  · obtain ⟨t, ht⟩ := c1.2 h1
    cases h2 : conversionThrows (readProp (.obj props) "_PID".toList)
    · obtain ⟨pid, hpid⟩ := c2.2 h2
      cases h3 : conversionThrows (readProp (.obj props) "PRIORITY".toList)
      · obtain ⟨prival, hprival⟩ := c3.2 h3
        rw [ht, hpid, hprival]
        simp
      · rw [ht, hpid, c3.1 h3]
        simp
    · rw [ht, c2.1 h2]
      simp
  · rw [c1.1 h1]
    simp

theorem exampleHost_convert (s : Str) (parsed quotient : ℕ) (hs : isDecimal s = true)
    (hbig : ¬ ((decimalValue s : ℚ) < maxExact))
    (hp : exampleHost.parseInt (.str s) = .finite (parsed : ℚ))
    (hd : exampleHost.divideBy1000 (.str s) = .finite (quotient : ℚ))
    (h1 : 10000000000000 < parsed) (h2 : quotient < 9007199254740992) :
    convertTimestamp exampleHost (.val (.str s)) = .ok (.val (.num (quotient : ℚ))) := by
  have hparse : parseInt exampleHost (.str s) = .ok (.finite (parsed : ℚ)) := by
    simp only [parseInt, toPrimitiveThrows, Bool.false_eq_true, if_false,
      parseIntString_decimal exampleHost _ hs, hbig, hp]
  have hdiv : divideBy1000 exampleHost (.str s) = .finite (quotient : ℚ) := by
    simp only [divideBy1000, hs, hbig, and_false, if_false, hd]
  have hq : parseIntNumber exampleHost (quotient : ℚ) = .finite (quotient : ℚ) :=
    parseIntNumber_natCast exampleHost quotient (by unfold maxExact; exact_mod_cast h2)
  have htruthy : (Json.str s).truthy = true := by
    cases s with
    | nil => simp [isDecimal] at hs
    | cons c cs => simp [Json.truthy]
  have hgt : (10000000000000 : ℚ) < (parsed : ℚ) := by exact_mod_cast h1
  unfold convertTimestamp
  simp only [htruthy, if_true, hparse, gt_finite, hdiv, parseIntOfNumber, hq,
    JsNumber.toValue, hgt, decide_True]

theorem exampleHost_rounded :
    convertTimestamp exampleHost (.val (.str "9007199254740999".toList)) =
      .ok (.val (.num 9007199254741)) ∧
    convertTimestamp exampleHost (.val (.str "150000000000000992".toList)) =
      .ok (.val (.num 150000000000001)) := by
  have hv1 : decimalValue "9007199254740999".toList = 9007199254740999 := by decide
  have hv2 : decimalValue "150000000000000992".toList = 150000000000000992 := by decide
  constructor
  · have := exampleHost_convert "9007199254740999".toList 9007199254741000 9007199254741
      (by decide) (by rw [hv1]; unfold maxExact; norm_num) (by simp [exampleHost])
      (by simp [exampleHost]) (by decide) (by decide)
    simpa using this
  · have := exampleHost_convert "150000000000000992".toList 150000000000000992
      150000000000001 (by decide) (by rw [hv2]; unfold maxExact; norm_num)
      (by simp [exampleHost]) (by simp [exampleHost]) (by decide) (by decide)
    simpa using this

/-- Counterexample for C13. `{"MESSAGE":"m","_PID":{"toString":null}}` parses as
a JSON object, but `parseInt(data._PID)` throws and no record is returned. For
`{"__REALTIME_TIMESTAMP":"9007199254740999"}` the record has `t` =
9007199254741, while `floor(9007199254740999 / 1000)` is 9007199254740: the
builtins work on the nearest double, 9007199254741000. For
`{"__REALTIME_TIMESTAMP":"150000000000000992"}`, an integer that is a double,
the quotient is rounded to 150000000000001 and that is `t`, while
`floor(150000000000000992 / 1000)` is 150000000000000. -/
theorem processChunk_parsed_counterexample :
    (exampleJournalParse "\x7b\"MESSAGE\":\"m\",\"_PID\":\x7b\"toString\":null\x7d\x7d".toList =
      some (.obj [("MESSAGE".toList, .str "m".toList),
        ("_PID".toList, .obj [("toString".toList, .null)])]) ∧
    processChunk exampleHost exampleJournalParse 0
      "\x7b\"MESSAGE\":\"m\",\"_PID\":\x7b\"toString\":null\x7d\x7d".toList = .error .throws) ∧
    (exampleJournalParse "\x7b\"__REALTIME_TIMESTAMP\":\"9007199254740999\"\x7d".toList =
      some (.obj [("__REALTIME_TIMESTAMP".toList, .str "9007199254740999".toList)]) ∧
    processChunk exampleHost exampleJournalParse 0
      "\x7b\"__REALTIME_TIMESTAMP\":\"9007199254740999\"\x7d".toList =
      .ok { t := .val (.num 9007199254741), l := .undefined,
            f := .val (.str "UNKNOWN_SYSTEMD_APP".toList),
            pid := .undefined, prival := .undefined, containerid := .undefined } ∧
    decimalValue "9007199254740999".toList / 1000 = 9007199254740) ∧
    (exampleJournalParse "\x7b\"__REALTIME_TIMESTAMP\":\"150000000000000992\"\x7d".toList =
      some (.obj [("__REALTIME_TIMESTAMP".toList, .str "150000000000000992".toList)]) ∧
    processChunk exampleHost exampleJournalParse 0
      "\x7b\"__REALTIME_TIMESTAMP\":\"150000000000000992\"\x7d".toList =
      .ok { t := .val (.num 150000000000001), l := .undefined,
            f := .val (.str "UNKNOWN_SYSTEMD_APP".toList),
            pid := .undefined, prival := .undefined, containerid := .undefined } ∧
    decimalValue "150000000000000992".toList / 1000 = 150000000000000) := by
  refine ⟨⟨rfl, rfl⟩, ⟨rfl, ?_, by decide⟩, rfl, ?_, by decide⟩
  · rw [processChunk_obj exampleHost exampleJournalParse 0
      "\x7b\"__REALTIME_TIMESTAMP\":\"9007199254740999\"\x7d".toList
      [("__REALTIME_TIMESTAMP".toList, .str "9007199254740999".toList)] rfl]
    have h1 : readProp (.obj [("__REALTIME_TIMESTAMP".toList, .str "9007199254740999".toList)])
        "__REALTIME_TIMESTAMP".toList = .val (.str "9007199254740999".toList) := rfl
    rw [h1, exampleHost_rounded.1]
    rfl
  · rw [processChunk_obj exampleHost exampleJournalParse 0
      "\x7b\"__REALTIME_TIMESTAMP\":\"150000000000000992\"\x7d".toList
      [("__REALTIME_TIMESTAMP".toList, .str "150000000000000992".toList)] rfl]
    have h1 : readProp
        (.obj [("__REALTIME_TIMESTAMP".toList, .str "150000000000000992".toList)])
        "__REALTIME_TIMESTAMP".toList = .val (.str "150000000000000992".toList) := rfl
    rw [h1, exampleHost_rounded.2]
    rfl

/-- C13 (amended): for every text that parses as a JSON object `d`. A record is
returned exactly when none of `__REALTIME_TIMESTAMP`, `_PID` and `PRIORITY` is a
truthy value whose conversion to a primitive throws. In every record returned:
`l` is `d.MESSAGE`; `f` is `d.CONTAINER_NAME` if that is truthy (present and
non-empty), else `d.SYSLOG_IDENTIFIER` if truthy, else `'UNKNOWN_SYSTEMD_APP'`;
`t` is `undefined` when `d` has no `__REALTIME_TIMESTAMP`, and the field
unchanged when it is falsy or when what `parseInt` reads from it is not greater
than 10^13 (`NaN` included); when the field is an integer `v`, written as a JSON
number or as a string of decimal digits, `t` is the field unchanged if
`v <= 10^13` and the number `floor(v / 1000)` if `10^13 < v < 2^53`. -/
theorem processChunk_parsed_object (host : Host) (jsonParse : Str → Option Json) (now : Int)
    (text : Str) (props : List (Str × Json))
    (hp : jsonParse text = some (.obj props)) :
    (∀ r, processChunk host jsonParse now text = .ok r →
      r.l = readProp (.obj props) "MESSAGE".toList ∧
      r.f =
        (if (readProp (.obj props) "CONTAINER_NAME".toList).truthy then
          readProp (.obj props) "CONTAINER_NAME".toList
        else if (readProp (.obj props) "SYSLOG_IDENTIFIER".toList).truthy then
          readProp (.obj props) "SYSLOG_IDENTIFIER".toList
        else .val (.str "UNKNOWN_SYSTEMD_APP".toList)) ∧
      (readProp (.obj props) "__REALTIME_TIMESTAMP".toList = .undefined →
        r.t = .undefined) ∧
      (∀ v, readProp (.obj props) "__REALTIME_TIMESTAMP".toList = .val v →
        (v.truthy = false ∨
          ∃ n, parseInt host v = .ok n ∧ n.gt (.finite 10000000000000) = false) →
        r.t = .val v) ∧
      (∀ s, readProp (.obj props) "__REALTIME_TIMESTAMP".toList = .val (.str s) →
        isDecimal s = true →
        (decimalValue s ≤ 10000000000000 → r.t = .val (.str s)) ∧
        (10000000000000 < decimalValue s → decimalValue s < 9007199254740992 →
          r.t = .val (.num ((decimalValue s / 1000 : ℕ) : ℚ)))) ∧
      (∀ n : ℕ, readProp (.obj props) "__REALTIME_TIMESTAMP".toList = .val (.num (n : ℚ)) →
        (n ≤ 10000000000000 → r.t = .val (.num (n : ℚ))) ∧
        (10000000000000 < n → n < 9007199254740992 →
          r.t = .val (.num ((n / 1000 : ℕ) : ℚ))))) ∧
    ((∃ r, processChunk host jsonParse now text = .ok r) ↔
      (conversionThrows (readProp (.obj props) "__REALTIME_TIMESTAMP".toList) = false ∧
        conversionThrows (readProp (.obj props) "_PID".toList) = false ∧
        conversionThrows (readProp (.obj props) "PRIORITY".toList) = false)) := by
  refine ⟨?_, processChunk_returns_iff host jsonParse now text props hp⟩
  intro r hr
  obtain ⟨ht, hl, hf⟩ := processChunk_ok_fields host jsonParse now text props hp r hr
  have hcast : ∀ n : ℕ, n < 9007199254740992 → (n : ℚ) < maxExact := by
    intro n hn
    unfold maxExact
    exact_mod_cast hn
  refine ⟨hl, ?_, ?_, ?_, ?_, ?_⟩
  · rw [hf]
    unfold orElse
    split_ifs <;> simp_all [JsValue.truthy]
  · intro hu
    rw [hu] at ht
    simp only [convertTimestamp] at ht
    exact (Except.ok.inj ht).symm
  · intro v hv hcase
    rw [hv] at ht
    rcases hcase with hfalsy | ⟨n, hn, hgt⟩
    · rw [convertTimestamp_falsy host v hfalsy] at ht
      exact (Except.ok.inj ht).symm
    · rw [convertTimestamp_small host v n hn hgt] at ht
      exact (Except.ok.inj ht).symm
  · intro s hs hdec
    rw [hs] at ht
    constructor
    · intro hsmall
      rw [convertTimestamp_decimal host s hdec (hcast _ (by omega)),
        if_neg (by omega)] at ht
      exact (Except.ok.inj ht).symm
    · intro hbig hlt
      rw [convertTimestamp_decimal host s hdec (hcast _ hlt), if_pos hbig] at ht
      exact (Except.ok.inj ht).symm
  · intro n hn
    rw [hn] at ht
    constructor
    · intro hsmall
      rw [convertTimestamp_natural host n (hcast _ (by omega)), if_neg (by omega)] at ht
      exact (Except.ok.inj ht).symm
    · intro hbig hlt
      rw [convertTimestamp_natural host n (hcast _ hlt), if_pos hbig] at ht
      exact (Except.ok.inj ht).symm

/-- Witness for C13: a journal line with a microsecond timestamp; a record is
returned and has the timestamp in milliseconds. -/
theorem processChunk_parsed_object_witness :
    ∃ r, processChunk exampleHost exampleJournalParse 0
      ("\x7b\"__REALTIME_TIMESTAMP\":\"1700000000123456\",\"MESSAGE\":\"up\"," ++
        "\"SYSLOG_IDENTIFIER\":\"sshd\",\"_PID\":\"812\",\"PRIORITY\":\"6\"\x7d").toList =
        .ok r ∧
      r.t = .val (.num ((1700000000123 : ℕ) : ℚ)) ∧
      r.l = .val (.str "up".toList) ∧ r.f = .val (.str "sshd".toList) := by
  obtain ⟨r, hr⟩ := (processChunk_parsed_object exampleHost exampleJournalParse 0
      ("\x7b\"__REALTIME_TIMESTAMP\":\"1700000000123456\",\"MESSAGE\":\"up\"," ++
        "\"SYSLOG_IDENTIFIER\":\"sshd\",\"_PID\":\"812\",\"PRIORITY\":\"6\"\x7d").toList
      [("__REALTIME_TIMESTAMP".toList, .str "1700000000123456".toList),
        ("MESSAGE".toList, .str "up".toList), ("SYSLOG_IDENTIFIER".toList, .str "sshd".toList),
        ("_PID".toList, .str "812".toList), ("PRIORITY".toList, .str "6".toList)] rfl).2.mpr
      ⟨by decide, by decide, by decide⟩
  have h := (processChunk_parsed_object exampleHost exampleJournalParse 0
      ("\x7b\"__REALTIME_TIMESTAMP\":\"1700000000123456\",\"MESSAGE\":\"up\"," ++
        "\"SYSLOG_IDENTIFIER\":\"sshd\",\"_PID\":\"812\",\"PRIORITY\":\"6\"\x7d").toList
      [("__REALTIME_TIMESTAMP".toList, .str "1700000000123456".toList),
        ("MESSAGE".toList, .str "up".toList), ("SYSLOG_IDENTIFIER".toList, .str "sshd".toList),
        ("_PID".toList, .str "812".toList), ("PRIORITY".toList, .str "6".toList)] rfl).1 r hr
  refine ⟨r, hr, ?_, ?_, ?_⟩
  · exact (h.2.2.2.2.1 "1700000000123456".toList rfl (by decide)).2 (by decide) (by decide)
  · rw [h.1]
    rfl
  · rw [h.2.1]
    rfl

/-- Counterexample for C14: `{"a":1}` has no timestamp field and `processChunk`
returns a record whose `t` is `undefined`, not the current time; and for
`{"__REALTIME_TIMESTAMP":{"toString":null}}` it returns no record at all. -/
theorem processChunk_timestamp_counterexample :
    processChunk exampleHost exampleJournalParse 1700000000000 "\x7b\"a\":1\x7d".toList =
      .ok { t := .undefined, l := .undefined,
            f := .val (.str "UNKNOWN_SYSTEMD_APP".toList),
            pid := .undefined, prival := .undefined, containerid := .undefined } ∧
    processChunk exampleHost exampleJournalParse 1700000000000
      "\x7b\"__REALTIME_TIMESTAMP\":\x7b\"toString\":null\x7d\x7d".toList = .error .throws :=
  ⟨rfl, rfl⟩

/-- C14 (amended): the timestamp of the record `processChunk` returns. For a
text that is not valid JSON a record is returned and `t` is the current time.
For a payload that has `__REALTIME_TIMESTAMP`, in every record returned `t` is
defined: it is the field itself, or the number the conversion makes of it; the
field itself when it is falsy, when what `parseInt` reads from it is not greater
than 10^13 (`NaN` included), or when it is an integer `v <= 10^13`, and
`floor(v / 1000)` when it is an integer `10^13 < v < 2^53` (a JSON number or a
string of decimal digits). For a payload
without the field `t` is `undefined`: there is no fallback to the current time.
A record is returned for every payload whose three numeric fields convert
without throwing. -/
theorem processChunk_timestamp (host : Host) (jsonParse : Str → Option Json) (now : Int)
    (text : Str) :
    (jsonParse text = none →
      ∃ r, processChunk host jsonParse now text = .ok r ∧ r.t = .val (.num now)) ∧
    (∀ r props v, processChunk host jsonParse now text = .ok r →
      jsonParse text = some (.obj props) →
      getProp props "__REALTIME_TIMESTAMP".toList = some v →
      r.t ≠ .undefined ∧
      (r.t = .val v ∨ ∃ n : JsNumber, r.t = n.toValue) ∧
      ((v.truthy = false ∨
          ∃ n, parseInt host v = .ok n ∧ n.gt (.finite 10000000000000) = false) →
        r.t = .val v) ∧
      (∀ s, v = .str s → isDecimal s = true →
        (decimalValue s ≤ 10000000000000 → r.t = .val v) ∧
        (10000000000000 < decimalValue s → decimalValue s < 9007199254740992 →
          r.t = .val (.num ((decimalValue s / 1000 : ℕ) : ℚ)))) ∧
      (∀ n : ℕ, v = .num (n : ℚ) →
        (n ≤ 10000000000000 → r.t = .val v) ∧
        (10000000000000 < n → n < 9007199254740992 →
          r.t = .val (.num ((n / 1000 : ℕ) : ℚ))))) ∧
    (∀ r props, processChunk host jsonParse now text = .ok r →
      jsonParse text = some (.obj props) →
      getProp props "__REALTIME_TIMESTAMP".toList = none → r.t = .undefined) ∧
    (∀ props, jsonParse text = some (.obj props) →
      conversionThrows (readProp (.obj props) "__REALTIME_TIMESTAMP".toList) = false →
      conversionThrows (readProp (.obj props) "_PID".toList) = false →
      conversionThrows (readProp (.obj props) "PRIORITY".toList) = false →
      ∃ r, processChunk host jsonParse now text = .ok r) := by
  have hcast : ∀ n : ℕ, n < 9007199254740992 → (n : ℚ) < maxExact := by
    intro n hn
    unfold maxExact
    exact_mod_cast hn
  refine ⟨?_, ?_, ?_, ?_⟩
  · intro hn
    refine ⟨rawRecord now text, ?_, rfl⟩
    unfold processChunk
    rw [hn]
  · intro r props v h hp hv
    obtain ⟨ht, _, _⟩ := processChunk_ok_fields host jsonParse now text props hp r h
    simp only [readProp, hv] at ht
    obtain ⟨hne, hor⟩ := convertTimestamp_val host v r.t ht
    refine ⟨hne, hor, ?_, ?_, ?_⟩
    · intro hcase
      rcases hcase with hfalsy | ⟨n, hn, hgt⟩
      · rw [convertTimestamp_falsy host v hfalsy] at ht
        exact (Except.ok.inj ht).symm
      · rw [convertTimestamp_small host v n hn hgt] at ht
        exact (Except.ok.inj ht).symm
    · intro s hs hdec
      subst hs
      constructor
      · intro hsmall
        rw [convertTimestamp_decimal host s hdec (hcast _ (by omega)),
          if_neg (by omega)] at ht
        exact (Except.ok.inj ht).symm
      · intro hbig hlt
        rw [convertTimestamp_decimal host s hdec (hcast _ hlt), if_pos hbig] at ht
        exact (Except.ok.inj ht).symm
    · intro n hn
      subst hn
      constructor
      · intro hsmall
        rw [convertTimestamp_natural host n (hcast _ (by omega)), if_neg (by omega)] at ht
        exact (Except.ok.inj ht).symm
      · intro hbig hlt
        rw [convertTimestamp_natural host n (hcast _ hlt), if_pos hbig] at ht
        exact (Except.ok.inj ht).symm
  · intro r props h hp hv
    obtain ⟨ht, _, _⟩ := processChunk_ok_fields host jsonParse now text props hp r h
    simp only [readProp, hv, convertTimestamp] at ht
    exact (Except.ok.inj ht).symm
  · intro props hp h1 h2 h3
    exact (processChunk_returns_iff host jsonParse now text props hp).mpr ⟨h1, h2, h3⟩

/-- Witness for C14: the journal line with the timestamp `1700000000123456`
gives a record whose `t` is 1700000000123, and the text `not json` gives a
record whose `t` is the current time. -/
theorem processChunk_timestamp_witness :
    (∃ r, processChunk exampleHost exampleJournalParse 1700000000000
      ("\x7b\"__REALTIME_TIMESTAMP\":\"1700000000123456\",\"MESSAGE\":\"up\"," ++
        "\"SYSLOG_IDENTIFIER\":\"sshd\",\"_PID\":\"812\",\"PRIORITY\":\"6\"\x7d").toList =
        .ok r ∧
      r.t = .val (.num ((1700000000123 : ℕ) : ℚ))) ∧
    (∃ r, processChunk exampleHost exampleJournalParse 1700000000000 "not json".toList =
        .ok r ∧ r.t = .val (.num 1700000000000)) := by
  have h := processChunk_timestamp exampleHost exampleJournalParse 1700000000000
      ("\x7b\"__REALTIME_TIMESTAMP\":\"1700000000123456\",\"MESSAGE\":\"up\"," ++
        "\"SYSLOG_IDENTIFIER\":\"sshd\",\"_PID\":\"812\",\"PRIORITY\":\"6\"\x7d").toList
  refine ⟨?_, (processChunk_timestamp exampleHost exampleJournalParse 1700000000000
      "not json".toList).1 rfl⟩
  obtain ⟨r, hr⟩ := h.2.2.2
      [("__REALTIME_TIMESTAMP".toList, .str "1700000000123456".toList),
        ("MESSAGE".toList, .str "up".toList), ("SYSLOG_IDENTIFIER".toList, .str "sshd".toList),
        ("_PID".toList, .str "812".toList), ("PRIORITY".toList, .str "6".toList)] rfl
      (by decide) (by decide) (by decide)
  exact ⟨r, hr, ((h.2.1 r _ _ hr rfl rfl).2.2.2.1 "1700000000123456".toList rfl
    (by decide)).2 (by decide) (by decide)⟩

/-! ### The journald handler -/

theorem journalLines_singleton (host : Host) (jsonParse : Str → Option Json)
    (clock : Nat → Int) (i : Nat) (lc : LastChunk) (line : Str) :
    journalLines host jsonParse clock i lc [line] =
      journalLine host jsonParse (clock i) lc line := by
  simp only [journalLines]
  cases h : journalLine host jsonParse (clock i) lc line with
  | mk l e t =>
    cases t <;> simp

theorem journalLine_whole_ok (host : Host) (jsonParse : Str → Option Json) (now : Int)
    (lc : LastChunk) (line : Str) (record : JournalRecord)
    (h1 : firstChar line = ['{']) (h2 : lastChar line = ['}'])
    (h : processChunk host jsonParse now line = .ok record) :
    journalLine host jsonParse now lc line =
      { lastchunk := if lc.truthy then none else lc, emitted := [record], threw := false } := by
  simp [journalLine, h1, h2, h]

theorem journalLine_whole_throws (host : Host) (jsonParse : Str → Option Json) (now : Int)
    (lc : LastChunk) (line : Str) (e : Fail)
    (h1 : firstChar line = ['{']) (h2 : lastChar line = ['}'])
    (h : processChunk host jsonParse now line = .error e) :
    journalLine host jsonParse now lc line =
      { lastchunk := lc, emitted := [], threw := true } := by
  simp [journalLine, h1, h2, h]

theorem journalLine_opening (host : Host) (jsonParse : Str → Option Json) (now : Int)
    (lc : LastChunk) (line : Str)
    (h1 : firstChar line = ['{']) (h2 : lastChar line ≠ ['}']) :
    journalLine host jsonParse now lc line =
      { lastchunk := some (lc.text ++ line), emitted := [], threw := false } := by
  cases lc with
  | none => simp [journalLine, h1, h2, LastChunk.truthy, LastChunk.text]
  | some p =>
    cases p with
    | nil => simp [journalLine, h1, h2, LastChunk.truthy, LastChunk.text]
    | cons c cs => simp [journalLine, h1, h2, LastChunk.truthy, LastChunk.text]

theorem journalLine_closing_ok (host : Host) (jsonParse : Str → Option Json) (now : Int)
    (lc : LastChunk) (line : Str) (record : JournalRecord)
    (h0 : lc.truthy = true) (h1 : firstChar line ≠ ['{']) (h2 : lastChar line = ['}'])
    (h : processChunk host jsonParse now (lc.text ++ line) = .ok record) :
    journalLine host jsonParse now lc line =
      { lastchunk := none, emitted := [record], threw := false } := by
  simp [journalLine, h0, h1, h2, h]

theorem journalLine_closing_throws (host : Host) (jsonParse : Str → Option Json) (now : Int)
    (lc : LastChunk) (line : Str) (e : Fail)
    (h0 : lc.truthy = true) (h1 : firstChar line ≠ ['{']) (h2 : lastChar line = ['}'])
    (h : processChunk host jsonParse now (lc.text ++ line) = .error e) :
    journalLine host jsonParse now lc line =
      { lastchunk := some (lc.text ++ line), emitted := [], threw := true } := by
  simp [journalLine, h0, h1, h2, h]

theorem journalLine_continuation (host : Host) (jsonParse : Str → Option Json) (now : Int)
    (lc : LastChunk) (line : Str)
    (h0 : lc.truthy = true) (h1 : firstChar line ≠ ['{']) (h2 : lastChar line ≠ ['}'])
    (h3 : lc.text.length < maxPartial) :
    journalLine host jsonParse now lc line =
      { lastchunk := some (lc.text ++ line), emitted := [], threw := false } := by
  simp [journalLine, h0, h1, h2, h3]

theorem journalLine_raw (host : Host) (jsonParse : Str → Option Json) (now : Int)
    (lc : LastChunk) (x : Str) (hx : firstChar x ≠ ['{'])
    (h : lc.truthy = false ∨ (lastChar x ≠ ['}'] ∧ maxPartial ≤ lc.text.length)) :
    journalLine host jsonParse now lc x =
      { lastchunk := lc, emitted := [rawRecord now x], threw := false } := by
  unfold journalLine
  rcases h with h | ⟨h2, h3⟩
  · simp [hx, h]
  · have h4 : ¬ lc.text.length < maxPartial := by omega
    simp [hx, h2, h4]

theorem lastChar_concat (l : Str) (x : Char) : lastChar (l ++ [x]) = [x] := by
  unfold lastChar
  have : (l ++ [x]).length - 1 = l.length := by simp
  rw [this, List.drop_left]

theorem journalData_opening_line (host : Host) (jsonParse : Str → Option Json)
    (clock : Nat → Int) (lc : LastChunk) (line : Str)
    (h1 : firstChar line = ['{']) (h2 : lastChar line ≠ ['}']) (hn : '\n' ∉ line)
    (ht : trim line = line) :
    journalData host jsonParse clock lc line =
      { lastchunk := some (lc.text ++ line), emitted := [], threw := false } := by
  unfold journalData
  rw [ht, splitLines_of_no_newline line hn, journalLines_singleton,
    journalLine_opening host jsonParse (clock 0) lc line h1 h2]

theorem journalData_long_opening (host : Host) (jsonParse : Str → Option Json)
    (clock : Nat → Int) (lc : LastChunk) (n : Nat) :
    journalData host jsonParse clock lc ('{' :: List.replicate (n + 1) 'x') =
      { lastchunk := some (lc.text ++ '{' :: List.replicate (n + 1) 'x'), emitted := [],
        threw := false } := by
  have hs : '{' :: List.replicate (n + 1) 'x' = ('{' :: List.replicate n 'x') ++ ['x'] := by
    rw [List.replicate_succ']
    rfl
  have hx : ('x' : Char) ≠ '\n' := by decide
  have hb : ('{' : Char) ≠ '\n' := by decide
  refine journalData_opening_line host jsonParse clock lc _ (by simp [firstChar]) ?_ ?_ ?_
  · rw [hs, lastChar_concat]
    decide
  · intro hmem
    rcases List.mem_cons.mp hmem with h | h
    · exact hb h.symm
    · exact hx (List.eq_of_mem_replicate h).symm
  · rw [trim_eq_self_iff]
    refine ⟨dropWhile_of_firstChar_brace (by simp [firstChar]), ?_⟩
    rw [hs]
    exact List.rdropWhile_concat_neg _ _ _ (by decide)

theorem journalData_overflow_line (host : Host) (jsonParse : Str → Option Json)
    (clock : Nat → Int) (p : Str) (hp : maxPartial ≤ p.length) :
    journalData host jsonParse clock (some p) ['y'] =
      { lastchunk := some p, emitted := [rawRecord (clock 0) ['y']], threw := false } := by
  have hy : trim ['y'] = ['y'] := by decide
  have hl : splitLines ['y'] = [['y']] := by decide
  unfold journalData
  rw [hy, hl, journalLines_singleton]
  exact journalLine_raw host jsonParse (clock 0) (some p) ['y'] (by decide)
    (Or.inr ⟨by decide, hp⟩)

theorem journalLine_append_long (host : Host) (jsonParse : Str → Option Json) (now : Int)
    (n : Nat) :
    journalLine host jsonParse now (some ['{']) (List.replicate (n + 1) 'x') =
      { lastchunk := some ('{' :: List.replicate (n + 1) 'x'), emitted := [],
        threw := false } := by
  have hs : List.replicate (n + 1) 'x' = List.replicate n 'x' ++ ['x'] :=
    List.replicate_succ' n 'x'
  have h1 : firstChar (List.replicate (n + 1) 'x') ≠ ['{'] := by
    simp [firstChar, List.replicate_succ]
  have h2 : lastChar (List.replicate (n + 1) 'x') ≠ ['}'] := by
    rw [hs, lastChar_concat]
    decide
  rw [journalLine_continuation host jsonParse now (some ['{']) _ (by decide) h1 h2
    (by decide)]
  rfl

/-- A whole line `w`, then the opening part `a` of a record in the same chunk,
and the closing part `b` in the next chunk, when `processChunk` returns on `w`
and on `a ++ b`: from an empty partial buffer the handler emits the two records,
nothing else, and ends with the buffer cleared. A line contains no line feed. -/
theorem journalData_whole_then_split (host : Host) (jsonParse : Str → Option Json)
    (clock1 clock2 : Nat → Int) (w a b : Str) (r1 r2 : JournalRecord)
    (hw1 : firstChar w = ['{']) (hw2 : lastChar w = ['}']) (hwn : '\n' ∉ w)
    (ha1 : firstChar a = ['{']) (ha2 : lastChar a ≠ ['}']) (han : '\n' ∉ a)
    (hat : trim a = a)
    (hb0 : b ≠ []) (hb1 : firstChar b ≠ ['{']) (hb2 : lastChar b = ['}'])
    (hbn : '\n' ∉ b) (hbt : trim b = b)
    (hr1 : processChunk host jsonParse (clock1 0) w = .ok r1)
    (hr2 : processChunk host jsonParse (clock2 0) (a ++ b) = .ok r2) :
    journalData host jsonParse clock1 none (w ++ '\n' :: a) =
      { lastchunk := some a, emitted := [r1], threw := false } ∧
    journalData host jsonParse clock2 (some a) (b ++ ['\n']) =
      { lastchunk := none, emitted := [r2], threw := false } := by
  have hane : a ≠ [] := ne_nil_of_firstChar ha1
  have hwne : w ≠ [] := ne_nil_of_firstChar hw1
  have ht1 : trim (w ++ '\n' :: a) = w ++ '\n' :: a := by
    rw [trim_eq_self_iff]
    refine ⟨dropWhile_append_self w _ hwne (dropWhile_of_firstChar_brace hw1), ?_⟩
    have : w ++ '\n' :: a = (w ++ ['\n']) ++ a := by simp
    rw [this]
    exact rdropWhile_append_self _ a hane ((trim_eq_self_iff a).mp hat).2
  have ht2 : trim (b ++ ['\n']) = b := by
    unfold trim
    rw [dropWhile_append_self b _ hb0 ((trim_eq_self_iff b).mp hbt).1]
    rw [List.rdropWhile_concat_pos _ _ _ (by decide)]
    exact ((trim_eq_self_iff b).mp hbt).2
  have hta : LastChunk.truthy (some a) = true := by
    cases a with
    | nil => exact absurd rfl hane
    | cons c cs => simp [LastChunk.truthy]
  constructor
  · unfold journalData
    rw [ht1, splitLines_append_newline w a hwn, splitLines_of_no_newline a han]
    simp [journalLines, journalLine_whole_ok host jsonParse (clock1 0) none w r1 hw1 hw2 hr1,
      journalLine_opening host jsonParse (clock1 1) none a ha1 ha2, LastChunk.truthy,
      LastChunk.text]
  · unfold journalData
    rw [ht2, splitLines_of_no_newline b hbn, journalLines_singleton,
      journalLine_closing_ok host jsonParse (clock2 0) (some a) b r2 hta hb1 hb2
        (by simpa [LastChunk.text] using hr2)]

/-- C2: the chunks `{"__REALTIME_TIMESTAMP":{"toString":null}}\n{"b"` and `:2}\n`
from an empty partial buffer. The whole line parses, `parseInt` throws on its
timestamp outside the `try`, and the exception leaves the handler of the first
chunk: no record is emitted and the opening part `{"b"` is never stored. The
second chunk then finds no open buffer and emits `:2}` as a raw record. When the
same text arrives in two parts, the closing part is appended, `processChunk`
throws, and the handler is left with the whole text still in the buffer. -/
theorem journalData_throwing_whole_line :
    firstChar "\x7b\"__REALTIME_TIMESTAMP\":\x7b\"toString\":null\x7d\x7d".toList = ['{'] ∧
    lastChar "\x7b\"__REALTIME_TIMESTAMP\":\x7b\"toString\":null\x7d\x7d".toList = ['}'] ∧
    processChunk exampleHost exampleJournalParse 1700000000000
      "\x7b\"__REALTIME_TIMESTAMP\":\x7b\"toString\":null\x7d\x7d".toList = .error .throws ∧
    journalData exampleHost exampleJournalParse (fun _ => 1700000000000) none
      ("\x7b\"__REALTIME_TIMESTAMP\":\x7b\"toString\":null\x7d\x7d".toList ++
        '\n' :: "\x7b\"b\"".toList) =
      { lastchunk := none, emitted := [], threw := true } ∧
    journalData exampleHost exampleJournalParse (fun _ => 1700000000000) none
      (":2\x7d".toList ++ ['\n']) =
      { lastchunk := none,
        emitted := [{ t := .val (.num 1700000000000), l := .val (.str ":2\x7d".toList),
                      f := .val (.str "systemd".toList), pid := .undefined,
                      prival := .undefined, containerid := .undefined }],
        threw := false } ∧
    journalData exampleHost exampleJournalParse (fun _ => 1700000000000)
      (some "\x7b\"__REALTIME_TIMESTAMP\":\x7b\"toString\"".toList)
      (":null\x7d\x7d".toList ++ ['\n']) =
      { lastchunk := some "\x7b\"__REALTIME_TIMESTAMP\":\x7b\"toString\":null\x7d\x7d".toList,
        emitted := [], threw := true } := by
  refine ⟨by decide, by decide, rfl, rfl, rfl, rfl⟩

/-- Counterexample for C9: an opening line of 32769 characters is stored whole,
so the partial buffer exceeds 32768 characters; the next line `y` is emitted as
an overflow fallback record and the buffer is still open afterwards. And a whole
line on which `processChunk` throws leaves an open buffer as it was. -/
theorem journald_buffer_bound_counterexample :
    (journalData exampleHost exampleJournalParse (fun _ => 0) none
      ('{' :: List.replicate 32768 'x') =
      { lastchunk := some ('{' :: List.replicate 32768 'x'), emitted := [], threw := false } ∧
    ('{' :: List.replicate 32768 'x').length = 32769 ∧
    journalData exampleHost exampleJournalParse (fun _ => 0)
      (some ('{' :: List.replicate 32768 'x')) ['y'] =
      { lastchunk := some ('{' :: List.replicate 32768 'x'),
        emitted := [rawRecord 0 ['y']], threw := false }) ∧
    journalLine exampleHost exampleJournalParse 0 (some "\x7b\"x\":".toList)
      "\x7b\"__REALTIME_TIMESTAMP\":\x7b\"toString\":null\x7d\x7d".toList =
      { lastchunk := some "\x7b\"x\":".toList, emitted := [], threw := true } := by
  have hlen : ('{' :: List.replicate 32768 'x').length = 32769 := by
    rw [List.length_cons, List.length_replicate]
  refine ⟨⟨journalData_long_opening exampleHost exampleJournalParse _ none 32767, hlen, ?_⟩,
    rfl⟩
  refine journalData_overflow_line exampleHost exampleJournalParse _ _ ?_
  rw [hlen]
  decide

/-- C9 (amended): what one candidate line does to the partial buffer, for every
state of the buffer. A whole line, and a closing line on an open buffer, whose
`processChunk` call returns hands on that one record and leaves the buffer
empty. A line that begins with `{` and is not whole is appended to the buffer
whatever the lengths. A line that does not begin with `{` is appended to an open
buffer that holds fewer than 32768 characters, when it is not a closing line;
it is emitted raw, and the buffer left as it was, when no buffer is open or when
it is not a closing line and the buffer holds 32768 characters or more. -/
theorem journalLine_buffer_discipline (host : Host) (jsonParse : Str → Option Json)
    (now : Int) (lc : LastChunk) (line : Str) :
    (firstChar line = ['{'] → lastChar line = ['}'] →
      ∀ record, processChunk host jsonParse now line = .ok record →
        journalLine host jsonParse now lc line =
          { lastchunk := if lc.truthy then none else lc, emitted := [record],
            threw := false } ∧
        (journalLine host jsonParse now lc line).lastchunk.truthy = false) ∧
    (lc.truthy = true → firstChar line ≠ ['{'] → lastChar line = ['}'] →
      ∀ record, processChunk host jsonParse now (lc.text ++ line) = .ok record →
        journalLine host jsonParse now lc line =
          { lastchunk := none, emitted := [record], threw := false }) ∧
    (firstChar line = ['{'] → lastChar line ≠ ['}'] →
      journalLine host jsonParse now lc line =
        { lastchunk := some (lc.text ++ line), emitted := [], threw := false }) ∧
    (lc.truthy = true → firstChar line ≠ ['{'] → lastChar line ≠ ['}'] →
      lc.text.length < maxPartial →
      journalLine host jsonParse now lc line =
        { lastchunk := some (lc.text ++ line), emitted := [], threw := false } ∧
      (lc.text ++ line).length < maxPartial + line.length) ∧
    (firstChar line ≠ ['{'] →
      (lc.truthy = false ∨ (lastChar line ≠ ['}'] ∧ maxPartial ≤ lc.text.length)) →
      journalLine host jsonParse now lc line =
        { lastchunk := lc, emitted := [rawRecord now line], threw := false }) := by
  refine ⟨?_, ?_, ?_, ?_, ?_⟩
  · intro h1 h2 record hr
    rw [journalLine_whole_ok host jsonParse now lc line record h1 h2 hr]
    refine ⟨rfl, ?_⟩
    cases hl : lc.truthy
    · simpa using hl
    · simp [LastChunk.truthy]
  · intro h0 h1 h2 record hr
    exact journalLine_closing_ok host jsonParse now lc line record h0 h1 h2 hr
  · intro h1 h2
    exact journalLine_opening host jsonParse now lc line h1 h2
  · intro h0 h1 h2 h3
    refine ⟨journalLine_continuation host jsonParse now lc line h0 h1 h2 h3, ?_⟩
    rw [List.length_append]
    omega
  · intro h1 h
    exact journalLine_raw host jsonParse now lc line h1 h

/-- Witness for C9: the whole line `{"a":1}` arrives while the partial `{"x":`
is open; its record is handed on and the buffer is empty afterwards. -/
theorem journalLine_buffer_discipline_witness :
    (journalLine exampleHost exampleJournalParse 0 (some "\x7b\"x\":".toList)
      "\x7b\"a\":1\x7d".toList).lastchunk.truthy = false :=
  ((journalLine_buffer_discipline exampleHost exampleJournalParse 0
      (some "\x7b\"x\":".toList) "\x7b\"a\":1\x7d".toList).1 (by decide) (by decide)
      { t := .undefined, l := .undefined, f := .val (.str "UNKNOWN_SYSTEMD_APP".toList),
        pid := .undefined, prival := .undefined, containerid := .undefined } rfl).2

/-- Counterexample for C10: with the partial `{"x":` open, the opening line
`{"y"` does not replace it; the buffer becomes `{"x":{"y"`. -/
theorem journal_opening_replaces_counterexample :
    (journalLine exampleHost exampleJournalParse 0 (some "\x7b\"x\":".toList)
      "\x7b\"y\"".toList).lastchunk = some "\x7b\"x\":\x7b\"y\"".toList ∧
    (journalLine exampleHost exampleJournalParse 0 (some "\x7b\"x\":".toList)
      "\x7b\"y\"".toList).lastchunk ≠ some "\x7b\"y\"".toList := by
  decide

/-- C10 (amended): for every state of the partial buffer and every opening line
`a`, after the handler processes `a` the buffer is the earlier partial extended
by `a` (exactly `a` when no partial was open), and no record is emitted. -/
theorem journalLine_opening_extends (host : Host) (jsonParse : Str → Option Json)
    (now : Int) (lc : LastChunk) (a : Str)
    (h1 : firstChar a = ['{']) (h2 : lastChar a ≠ ['}']) :
    journalLine host jsonParse now lc a =
      { lastchunk := some (lc.text ++ a), emitted := [], threw := false } ∧
    (lc.truthy = false → (journalLine host jsonParse now lc a).lastchunk = some a) := by
  refine ⟨journalLine_opening host jsonParse now lc a h1 h2, fun h => ?_⟩
  rw [journalLine_opening host jsonParse now lc a h1 h2]
  cases lc with
  | none => simp [LastChunk.text]
  | some p =>
    cases p with
    | nil => simp [LastChunk.text]
    | cons c cs => simp [LastChunk.truthy] at h

/-- Witness for C10: the opening line `{"b"` on an empty buffer. -/
theorem journalLine_opening_extends_witness :
    journalLine exampleHost exampleJournalParse 0 none "\x7b\"b\"".toList =
      { lastchunk := some "\x7b\"b\"".toList, emitted := [], threw := false } :=
  (journalLine_opening_extends exampleHost exampleJournalParse 0 none "\x7b\"b\"".toList
    (by decide) (by decide)).1

/-- Counterexample for C11: with the partial `{` open (1 character), a line of
32768 characters `x` is neither whole, nor opening, nor closing, and the two
lengths add up to 32769; the handler appends the line and emits no record. -/
theorem journalLine_raw_fallback_counterexample :
    (['{'] : Str).length + (List.replicate 32768 'x').length = 32769 ∧
    journalLine exampleHost exampleJournalParse 0 (some ['{']) (List.replicate 32768 'x') =
      { lastchunk := some ('{' :: List.replicate 32768 'x'), emitted := [], threw := false } :=
  ⟨by rw [List.length_replicate]; rfl,
    journalLine_append_long exampleHost exampleJournalParse 0 32767⟩

/-- C11 (amended): for every candidate line `x` that does not begin with `{`
(neither whole nor opening): if no partial buffer is open, or a partial `p` is
open, `x` is not a closing line and `p` already holds 32768 characters or more,
the handler emits exactly one record, `{t: current time, l: x, f: 'systemd'}`,
leaves the buffer as it was, and does not throw. -/
theorem journalLine_raw_fallback (host : Host) (jsonParse : Str → Option Json) (now : Int)
    (lc : LastChunk) (x : Str) (hx : firstChar x ≠ ['{'])
    (h : lc.truthy = false ∨ (lastChar x ≠ ['}'] ∧ maxPartial ≤ lc.text.length)) :
    journalLine host jsonParse now lc x =
      { lastchunk := lc,
        emitted := [{ t := .val (.num now), l := .val (.str x),
                      f := .val (.str "systemd".toList), pid := .undefined,
                      prival := .undefined, containerid := .undefined }],
        threw := false } :=
  journalLine_raw host jsonParse now lc x hx h

/-- Witness for C11: the line `oops` with no partial buffer open. -/
theorem journalLine_raw_fallback_witness :
    journalLine exampleHost exampleJournalParse 0 none "oops".toList =
      { lastchunk := none,
        emitted := [{ t := .val (.num 0), l := .val (.str "oops".toList),
                      f := .val (.str "systemd".toList), pid := .undefined,
                      prival := .undefined, containerid := .undefined }],
        threw := false } :=
  journalLine_raw_fallback exampleHost exampleJournalParse 0 none "oops".toList (by decide)
    (Or.inl rfl)

/-- C12: for every text on which `JSON.parse` throws, `processChunk` does not
fail and returns the raw record `{t: current time, l: the text unchanged, f:
'systemd'}`; so a whole line with that text, and a closing line that completes
that text, produces exactly one record, the raw one, and the handler goes on with
the buffer cleared. -/
theorem processChunk_invalid_json (host : Host) (jsonParse : Str → Option Json) (now : Int)
    (text : Str) (h : jsonParse text = none) :
    processChunk host jsonParse now text =
      .ok { t := .val (.num now), l := .val (.str text), f := .val (.str "systemd".toList),
            pid := .undefined, prival := .undefined, containerid := .undefined } ∧
    (∀ lc : LastChunk, firstChar text = ['{'] → lastChar text = ['}'] →
      journalLine host jsonParse now lc text =
        { lastchunk := if lc.truthy then none else lc, emitted := [rawRecord now text],
          threw := false }) ∧
    (∀ (lc : LastChunk) (line : Str), lc.truthy = true → firstChar line ≠ ['{'] →
      lastChar line = ['}'] → text = lc.text ++ line →
      journalLine host jsonParse now lc line =
        { lastchunk := none, emitted := [rawRecord now text], threw := false }) := by
  have hraw : processChunk host jsonParse now text = .ok (rawRecord now text) := by
    unfold processChunk
    rw [h]
  refine ⟨hraw, ?_, ?_⟩
  · intro lc h1 h2
    exact journalLine_whole_ok host jsonParse now lc text _ h1 h2 hraw
  · intro lc line h0 h1 h2 ht
    rw [ht] at hraw
    rw [ht]
    exact journalLine_closing_ok host jsonParse now lc line _ h0 h1 h2 hraw

/-- Witness for C12: the whole line `{oops}` is not valid JSON. -/
theorem processChunk_invalid_json_witness :
    processChunk exampleHost exampleJournalParse 7 "\x7boops\x7d".toList =
      .ok { t := .val (.num 7), l := .val (.str "\x7boops\x7d".toList),
            f := .val (.str "systemd".toList),
            pid := .undefined, prival := .undefined, containerid := .undefined } ∧
    journalLine exampleHost exampleJournalParse 7 none "\x7boops\x7d".toList =
      { lastchunk := none, emitted := [rawRecord 7 "\x7boops\x7d".toList], threw := false } :=
  ⟨(processChunk_invalid_json exampleHost exampleJournalParse 7 "\x7boops\x7d".toList rfl).1,
   (processChunk_invalid_json exampleHost exampleJournalParse 7 "\x7boops\x7d".toList rfl).2.1
      none (by decide) (by decide)⟩

/-! ### The tail reader: end of stream, give-up signals, pause and resume -/

theorem handleEnd_not_timed_out (r : Reader) (h : hasTimedOut r = false) :
    handleEnd r =
      ({ r with reading := false,
                watching := if r.watching then true else r.readable },
        (if !r.watching && r.readable then [.stat] else []) ++ [.retryRead r.interval]) := by
  have ht : r.idle.ge r.timeout = false := h
  cases hw : r.watching <;> cases hr : r.readable <;>
    simp [handleEnd, watchFile, hasTimedOut, retryInInterval, hw, hr, ht]

theorem endCycles_fields (r : Reader) (h : hasTimedOut r = false) (k : Nat) :
    (endCycles k r).1.idle = r.idle ∧
    (endCycles k r).1.timeout = r.timeout ∧
    (endCycles k r).1.interval = r.interval ∧
    Effect.endOfStream ∉ (endCycles k r).2 ∧
    (endCycles k r).2.count (.retryRead r.interval) = k + 1 := by
  induction k with
  | zero =>
    simp only [endCycles, handleEnd_not_timed_out r h]
    refine ⟨trivial, trivial, trivial, ?_, ?_⟩
    · split_ifs <;> simp
    · split_ifs <;> simp
  | succ k ih =>
    obtain ⟨h1, h2, h3, h4, h5⟩ := ih
    obtain ⟨g1, g2, g3, g4, g5, _, g7⟩ :=
      readFromOffsetUntilEof_none_fields (endCycles k r).1
    have hb : hasTimedOut (readFromOffsetUntilEof none (endCycles k r).1).1 = false := by
      unfold hasTimedOut
      rw [g3, g5, h1, h2]
      exact h
    have hno : Effect.endOfStream ∉ (readFromOffsetUntilEof none (endCycles k r).1).2 := by
      unfold readFromOffsetUntilEof
      simp only
      split_ifs <;> simp
    rw [h3] at g7
    simp only [endCycles, handleEnd_not_timed_out _ hb, g3, g4, g5, h1, h2, h3]
    refine ⟨trivial, trivial, trivial, ?_, ?_⟩
    · simp only [List.mem_append, not_or]
      refine ⟨⟨h4, hno⟩, ?_⟩
      split_ifs <;> simp
    · simp only [List.count_append, h5, g7]
      split_ifs <;> simp

/-- Counterexample for C15: `_handleEnd` on a default reader that has not timed
out schedules the retry but leaves the idle accumulator at 0, also after three
more cycles of retry and end of stream. -/
theorem handleEnd_idle_counterexample :
    (handleEnd (newTailReadStream emptyEnv
      { interval := none, timeout := none, watchinterval := none,
        tailheadsize := none, tailheadage := none })).2 = [.stat, .retryRead 1000] ∧
    (handleEnd (newTailReadStream emptyEnv
      { interval := none, timeout := none, watchinterval := none,
        tailheadsize := none, tailheadage := none })).1.idle = 0 ∧
    (endCycles 3 (newTailReadStream emptyEnv
      { interval := none, timeout := none, watchinterval := none,
        tailheadsize := none, tailheadage := none })).1.idle = 0 := by
  decide

/-- C15 (amended): for every reader state in which the idle accumulator has not
reached the timeout, handling an end-of-stream schedules exactly one further
read cycle after read-interval and leaves the idle accumulator unchanged; so a
reader on an existing file that never grows keeps its idle accumulator through
any number of read cycles, never times out and never emits `end`. -/
theorem handleEnd_schedules_retry (r : Reader) (h : hasTimedOut r = false) (k : Nat) :
    (handleEnd r).2.filter Effect.isRetryRead = [.retryRead r.interval] ∧
    (handleEnd r).1.idle = r.idle ∧
    (endCycles k r).1.idle = r.idle ∧
    hasTimedOut (endCycles k r).1 = false ∧
    Effect.endOfStream ∉ (endCycles k r).2 ∧
    (endCycles k r).2.count (.retryRead r.interval) = k + 1 := by
  obtain ⟨h1, h2, h3, h4, h5⟩ := endCycles_fields r h k
  refine ⟨?_, ?_, h1, ?_, h4, h5⟩
  · rw [handleEnd_not_timed_out r h]
    split_ifs <;> simp [Effect.isRetryRead, List.filter]
  · rw [handleEnd_not_timed_out r h]
  · unfold hasTimedOut
    rw [h1, h2]
    exact h

/-- Witness for C15: a default reader at offset 700 whose stream ended. -/
theorem handleEnd_schedules_retry_witness :
    (handleEnd
      { readable := true, stream := some { start := 0, paused := false }, offset := 700,
        interval := 1000, timeout := 3600000, watchinterval := 1000, tailheadsize := 8192,
        tailheadage := 60000, idle := 0, reading := true, paused := false,
        ended := false, watching := true }).1.idle = 0 :=
  (handleEnd_schedules_retry
      { readable := true, stream := some { start := 0, paused := false }, offset := 700,
        interval := 1000, timeout := 3600000, watchinterval := 1000, tailheadsize := 8192,
        tailheadage := 60000, idle := 0, reading := true, paused := false,
        ended := false, watching := true } (by decide) 0).2.1

theorem onTailEvents_unchanged (file : Str) (files : List Str) (effects : List Effect) :
    onTailEvents file files effects = files := by
  unfold onTailEvents
  induction effects with
  | nil => rfl
  | cons x xs ih =>
    rw [List.foldl_cons]
    have : onTailEvent file files x = files := by
      cases x <;> rfl
    rw [this]
    exact ih

/-- C16: the reader of the managed file `/var/log/a` gives up. A not-found read
error on a timed-out reader emits `nofile`, a failed sizing `stat` on a
timed-out reader emits `nofile`, and an end of stream on a timed-out reader
emits `end` without an argument; after each of them `files` still holds the
path, and the next rescan that discovers the path starts nothing. -/
theorem tail_gives_up_file_stays_managed :
    (handleError { code := "ENOENT".toList }
      { readable := false, stream := none, offset := 0, interval := 1000,
        timeout := 3600000, watchinterval := 1000, tailheadsize := 8192,
        tailheadage := 60000, idle := 3600000, reading := true, paused := false,
        ended := false, watching := false }).2 = [.nofile { code := "ENOENT".toList }] ∧
    onTailEvents "/var/log/a".toList ["/var/log/a".toList]
      [.nofile { code := "ENOENT".toList }] = ["/var/log/a".toList] ∧
    (getFileSizeAndReadUntilEofCallback 0 (.error { code := "ENOENT".toList })
      { readable := true, stream := none, offset := 0, interval := 1000,
        timeout := 3600000, watchinterval := 1000, tailheadsize := 8192,
        tailheadage := 60000, idle := 3600000, reading := false, paused := false,
        ended := false, watching := false }).2 = [.nofile { code := "ENOENT".toList }] ∧
    (handleEnd
      { readable := true, stream := some { start := 0, paused := false }, offset := 10,
        interval := 1000, timeout := 3600000, watchinterval := 1000, tailheadsize := 8192,
        tailheadage := 60000, idle := 3600000, reading := true, paused := false,
        ended := false, watching := true }).2 = [.endOfStream] ∧
    onTailEvents "/var/log/a".toList ["/var/log/a".toList] [.endOfStream] =
      ["/var/log/a".toList] ∧
    (streamAllLogs ["/var/log/a".toList] [.ok ["/var/log/a".toList]]).started = [] := by
  decide

/-- Counterexample for C17: `tail(path, 0, options)` runs the sizing `stat` and
opens no read. -/
theorem tail_offset_zero_counterexample :
    tail emptyEnv (.offset 0)
      { interval := none, timeout := none, watchinterval := none,
        tailheadsize := none, tailheadage := none } =
      (newTailReadStream emptyEnv
        { interval := none, timeout := none, watchinterval := none,
          tailheadsize := none, tailheadage := none }, [.stat]) := by
  decide

/-- C17 (amended): for every byte offset `n > 0`, `TailReadStream.tail(path, n,
options)` opens the first read directly at offset `n`, without the sizing
`stat`; for `n = 0` the argument is falsy and the sizing heuristic runs, as
when no offset is given. -/
theorem tail_explicit_offset (env : Env) (n : Nat) (options : Options) (hn : 0 < n) :
    tail env (.offset n) options =
      ({ newTailReadStream env options with
          offset := n, reading := true, stream := some { start := n, paused := false } },
        [.createReadStream n]) ∧
    tail env (.offset 0) options =
      getFileSizeAndReadUntilEof (newTailReadStream env options) ∧
    tail env (.offset 0) options = tail env .omitted options := by
  have h0 : n ≠ 0 := by omega
  refine ⟨?_, rfl, rfl⟩
  simp [tail, h0, readFromOffsetUntilEof, newTailReadStream]

/-- Witness for C17: resuming at offset 4096. -/
theorem tail_explicit_offset_witness :
    (tail emptyEnv (.offset 4096)
      { interval := none, timeout := none, watchinterval := none,
        tailheadsize := none, tailheadage := none }).2 = [.createReadStream 4096] :=
  congrArg Prod.snd (tail_explicit_offset emptyEnv 4096
      { interval := none, timeout := none, watchinterval := none,
        tailheadsize := none, tailheadage := none } (by decide)).1

/-- Counterexample for C18: a permission error on a reader whose idle
accumulator has reached the timeout emits `nofile`, not `error`, and leaves the
reader marked readable. -/
theorem handleError_fatal_counterexample :
    handleError { code := "EACCES".toList }
      { readable := true, stream := some { start := 0, paused := false }, offset := 10,
        interval := 1000, timeout := 3600000, watchinterval := 1000, tailheadsize := 8192,
        tailheadage := 60000, idle := 3600000, reading := true, paused := false,
        ended := false, watching := true } =
      ({ readable := true, stream := some { start := 0, paused := false }, offset := 10,
         interval := 1000, timeout := 3600000, watchinterval := 1000, tailheadsize := 8192,
         tailheadage := 60000, idle := 3600000, reading := false, paused := false,
         ended := false, watching := true }, [.nofile { code := "EACCES".toList }]) := by
  decide

/-- C18 (amended): for every read error whose code is not `ENOENT`. On a reader
that has not timed out `_handleError` is fatal: it emits `error` carrying that
error, marks the reader unreadable, clears the reading flag, leaves the offset
unchanged and schedules no retry. On a reader that has timed out it emits
`nofile` carrying the error instead, clears the reading flag and changes
nothing else. -/
theorem handleError_other_code (e : FsError) (r : Reader)
    (he : e.code ≠ DOES_NOT_EXIST_ERROR) :
    (hasTimedOut r = false →
      handleError e r = ({ r with reading := false, readable := false }, [.error e])) ∧
    (hasTimedOut r = true →
      handleError e r = ({ r with reading := false }, [.nofile e])) := by
  constructor
  · intro h
    have ht : r.idle.ge r.timeout = false := h
    simp [handleError, hasTimedOut, ht, he]
  · intro h
    have ht : r.idle.ge r.timeout = true := h
    simp [handleError, hasTimedOut, ht]

/-- Witness for C18: a permission error on a reader that has not timed out. -/
theorem handleError_other_code_witness :
    (handleError { code := "EACCES".toList }
      { readable := true, stream := some { start := 0, paused := false }, offset := 10,
        interval := 1000, timeout := 3600000, watchinterval := 1000, tailheadsize := 8192,
        tailheadage := 60000, idle := 0, reading := true, paused := false,
        ended := false, watching := true }).2 = [.error { code := "EACCES".toList }] :=
  congrArg Prod.snd ((handleError_other_code { code := "EACCES".toList }
      { readable := true, stream := some { start := 0, paused := false }, offset := 10,
        interval := 1000, timeout := 3600000, watchinterval := 1000, tailheadsize := 8192,
        tailheadage := 60000, idle := 0, reading := true, paused := false,
        ended := false, watching := true } (by decide)).1 (by decide))

/-- C19: `pause()` on a reader whose `_stream` is still `null`, as right after
`tail(path)` has issued the sizing `stat`, sets the paused flag and then throws
a `TypeError` at `this._stream.pause()`; `resume()` on the same reader has the
check `if (!this._stream) return` and returns without a change. -/
theorem pause_without_stream_throws :
    (tail emptyEnv .omitted
      { interval := none, timeout := none, watchinterval := none,
        tailheadsize := none, tailheadage := none }).1.stream = none ∧
    pause (tail emptyEnv .omitted
      { interval := none, timeout := none, watchinterval := none,
        tailheadsize := none, tailheadage := none }).1 =
      .threw { (tail emptyEnv .omitted
        { interval := none, timeout := none, watchinterval := none,
          tailheadsize := none, tailheadage := none }).1 with paused := true } ∧
    resume (tail emptyEnv .omitted
      { interval := none, timeout := none, watchinterval := none,
        tailheadsize := none, tailheadage := none }).1 =
      ((tail emptyEnv .omitted
        { interval := none, timeout := none, watchinterval := none,
          tailheadsize := none, tailheadage := none }).1, []) := by
  decide

theorem resume_resume (x : Reader) : resume (resume x).1 = ((resume x).1, []) := by
  cases hs : x.stream with
  | none => simp [resume, hs]
  | some s =>
    cases hr : x.reading <;>
      simp [resume, hs, hr, readFromOffsetUntilEof]

/-- On a reader that has a stream, `pause()` returns and changes only the paused
flag of the reader and of its stream, and applied twice gives the same state as
once; `resume()` after `pause()` leaves the paused flag false, the offset, idle
accumulator and intervals unchanged and a read in flight, opened at the current
offset when none was in flight. `resume()` applied twice gives the same state as
once, for every reader state; on a reader without a stream it does nothing. -/
theorem pause_resume (r : Reader) (s : FsStream) (hs : r.stream = some s) :
    pause r = .returned { r with paused := true, stream := some { s with paused := true } } ∧
    pause (pause r).state = pause r ∧
    (resume (pause r).state).1.paused = false ∧
    (resume (pause r).state).1.offset = r.offset ∧
    (resume (pause r).state).1.idle = r.idle ∧
    (resume (pause r).state).1.interval = r.interval ∧
    (resume (pause r).state).1.timeout = r.timeout ∧
    (resume (pause r).state).1.reading = true ∧
    (r.reading = false →
      (resume (pause r).state).2 = [.createReadStream r.offset] ∧
      (resume (pause r).state).1.stream = some { start := r.offset, paused := false }) ∧
    (r.reading = true →
      (resume (pause r).state).2 = [] ∧
      (resume (pause r).state).1.stream = some { s with paused := false }) ∧
    (∀ x : Reader, resume (resume x).1 = ((resume x).1, [])) ∧
    (∀ x : Reader, x.stream = none → resume x = (x, [])) := by
  have hp : pause r =
      .returned { r with paused := true, stream := some { s with paused := true } } := by
    simp [pause, hs]
  refine ⟨hp, ?_, ?_, ?_, ?_, ?_, ?_, ?_, ?_, ?_, resume_resume, ?_⟩
  · rw [hp]
    simp [pause, Call.state]
  all_goals try (rw [hp]; cases hr : r.reading <;>
    simp [Call.state, resume, readFromOffsetUntilEof, hr])
  · intro x hx
    simp [resume, hx]

/-! ### A file that is never found -/

theorem sizing_retry (now : Int) (e : FsError) (r : Reader)
    (he : e.code = DOES_NOT_EXIST_ERROR) (h : hasTimedOut r = false) :
    getFileSizeAndReadUntilEofCallback now (.error e) r =
      ({ r with readable := false, idle := r.idle.add r.interval },
        [.retrySize r.interval]) := by
  have ht : r.idle.ge r.timeout = false := h
  simp [getFileSizeAndReadUntilEofCallback, hasTimedOut, ht, he]

theorem sizing_give_up (now : Int) (e : FsError) (r : Reader) (h : hasTimedOut r = true) :
    getFileSizeAndReadUntilEofCallback now (.error e) r =
      ({ r with readable := false }, [.nofile e]) := by
  have ht : r.idle.ge r.timeout = true := h
  simp [getFileSizeAndReadUntilEofCallback, hasTimedOut, ht]

theorem sizingLoop_spec (now : Int) (e : FsError) (he : e.code = DOES_NOT_EXIST_ERROR)
    (i T m : Nat) : ∀ (fuel a : Nat) (r : Reader), m + 1 ≤ fuel →
      r.interval = .num i → r.timeout = .num T → r.idle = .num a →
      T ≤ a + m * i →
      (∀ j, j < m → a + j * i < T) →
      sizingLoop now e fuel r =
        ({ r with readable := false, idle := .num (a + m * i) },
          (List.replicate m [Effect.stat, Effect.retrySize (.num i)]).flatten ++
            [.stat, .nofile e]) := by
  induction m with
  | zero =>
    intro fuel a r hf hint hto hidle hge _
    obtain ⟨f, rfl⟩ : ∃ f, fuel = f + 1 := ⟨fuel - 1, by omega⟩
    have hto2 : hasTimedOut r = true := by
      rw [hasTimedOut_num r a T hidle hto]
      simpa using hge
    simp [sizingLoop, getFileSizeAndReadUntilEof, sizing_give_up now e r hto2,
      Effect.isRetrySize, ← hidle]
  | succ m ih =>
    intro fuel a r hf hint hto hidle hge hlt
    obtain ⟨f, rfl⟩ : ∃ f, fuel = f + 1 := ⟨fuel - 1, by omega⟩
    have h0 : hasTimedOut r = false := by
      rw [hasTimedOut_num r a T hidle hto]
      have := hlt 0 (by omega)
      simp only [Nat.zero_mul, Nat.add_zero] at this
      simpa using this
    have hrec := ih f (a + i) { r with readable := false, idle := .num (a + i) }
      (by omega) hint hto rfl
      (by
        have : a + (m + 1) * i = a + i + m * i := by ring
        omega)
      (by
        intro j hj
        have := hlt (j + 1) (by omega)
        have e2 : a + (j + 1) * i = a + i + j * i := by ring
        omega)
    have hadd : r.idle.add r.interval = .num (a + i) := by rw [hidle, hint]; rfl
    simp only [sizingLoop, getFileSizeAndReadUntilEof, sizing_retry now e r he h0,
      List.any_cons, Effect.isRetrySize, Bool.true_or, if_true, hadd, hrec]
    have harith : a + i + m * i = a + (m + 1) * i := by ring
    refine Prod.ext ?_ ?_
    · simp only [harith]
    · simp [List.replicate_succ, hint]

theorem readLoop_step (e : FsError) (he : e.code = DOES_NOT_EXIST_ERROR)
    (r : Reader) (hp : r.paused = false) (h : hasTimedOut r = false) :
    ∃ r2 pre,
      (∀ f, readLoop e (f + 1) r = ((readLoop e f r2).1, pre ++ (readLoop e f r2).2)) ∧
      r2.paused = false ∧ r2.idle = r.idle.add r.interval ∧ r2.interval = r.interval ∧
      r2.timeout = r.timeout ∧ pre.count (.nofile e) = 0 ∧
      pre.count (.retryRead r.interval) = 1 := by
  cases hr : r.readable
  · refine ⟨{ r with reading := true, idle := r.idle.add r.interval,
                     stream := some { start := r.offset, paused := false } },
      [.retryRead r.interval, .createReadStream r.offset], ?_, hp, rfl, rfl, rfl, ?_, ?_⟩
    · intro f
      simp [readLoop, handleError_enoent e r he h, hr, readFromOffsetUntilEof, hp,
        Effect.isRetryRead, Effect.isCreateReadStream]
    · simp
    · simp
  · refine ⟨{ r with reading := true, readable := false, offset := 0,
                     idle := r.idle.add r.interval,
                     stream := some { start := 0, paused := false } },
      [.rename, .retryRead r.interval, .createReadStream 0], ?_, hp, rfl, rfl, rfl, ?_, ?_⟩
    · intro f
      simp [readLoop, handleError_enoent e r he h, hr, readFromOffsetUntilEof, hp,
        Effect.isRetryRead, Effect.isCreateReadStream]
    · simp
    · simp

theorem readLoop_spec (e : FsError) (he : e.code = DOES_NOT_EXIST_ERROR) (i T m : Nat) :
    ∀ (fuel a : Nat) (r : Reader), m + 1 ≤ fuel → r.paused = false →
      r.interval = .num i → r.timeout = .num T → r.idle = .num a →
      T ≤ a + m * i →
      (∀ j, j < m → a + j * i < T) →
      (readLoop e fuel r).1.idle = .num (a + m * i) ∧
      (readLoop e fuel r).2.count (.nofile e) = 1 ∧
      (readLoop e fuel r).2.getLast? = some (.nofile e) ∧
      (readLoop e fuel r).2.count (.retryRead (.num i)) = m ∧
      readLoop e fuel r = readLoop e (m + 1) r := by
  induction m with
  | zero =>
    intro fuel a r hf _ hint hto hidle hge _
    obtain ⟨f, rfl⟩ : ∃ f, fuel = f + 1 := ⟨fuel - 1, by omega⟩
    have hto2 : hasTimedOut r = true := by
      rw [hasTimedOut_num r a T hidle hto]
      simpa using hge
    have h1 : ∀ g, readLoop e (g + 1) r = ({ r with reading := false }, [.nofile e]) := by
      intro g
      simp [readLoop, handleError_timed_out e r hto2, Effect.isRetryRead]
    rw [h1 f, h1 0]
    simp [hidle]
  | succ m ih =>
    intro fuel a r hf hp hint hto hidle hge hlt
    obtain ⟨f, rfl⟩ : ∃ f, fuel = f + 1 := ⟨fuel - 1, by omega⟩
    have h0 : hasTimedOut r = false := by
      rw [hasTimedOut_num r a T hidle hto]
      have := hlt 0 (by omega)
      simp only [Nat.zero_mul, Nat.add_zero] at this
      simpa using this
    obtain ⟨r2, pre, hstep, hp2, hidle2, hint2, hto2, hc1, hc2⟩ :=
      readLoop_step e he r hp h0
    have hidle3 : r2.idle = .num (a + i) := by rw [hidle2, hidle, hint]; rfl
    have harith : a + (m + 1) * i = a + i + m * i := by ring
    have hge2 : T ≤ a + i + m * i := by omega
    have hlt2 : ∀ j, j < m → a + i + j * i < T := by
      intro j hj
      have := hlt (j + 1) (by omega)
      have e2 : a + (j + 1) * i = a + i + j * i := by ring
      omega
    obtain ⟨a1, a2, a3, a4, a5⟩ :=
      ih f (a + i) r2 (by omega) hp2 (hint2.trans hint) (hto2.trans hto) hidle3 hge2 hlt2
    obtain ⟨_, _, _, _, a6⟩ :=
      ih (m + 1) (a + i) r2 (by omega) hp2 (hint2.trans hint) (hto2.trans hto) hidle3 hge2 hlt2
    rw [hstep f]
    rw [hint] at hc2
    refine ⟨?_, ?_, ?_, ?_, ?_⟩
    · rw [a1, harith]
    · simp only [List.count_append, hc1, a2]
    · have hne : (readLoop e f r2).2 ≠ [] := by
        intro hnil
        rw [hnil] at a3
        simp at a3
      rw [List.getLast?_append_of_ne_nil _ hne]
      exact a3
    · simp only [List.count_append, hc2, a4]
      omega
    · rw [hstep (m + 1), a5, a6]

theorem ceil_div_spec (T i : Nat) (hi : 0 < i) :
    T ≤ ((T + i - 1) / i) * i ∧ ∀ j, j < (T + i - 1) / i → j * i < T := by
  have h1 : (T + i - 1) / i * i ≤ T + i - 1 := Nat.div_mul_le_self _ _
  have h2 : T + i - 1 < i * ((T + i - 1) / i + 1) := Nat.lt_mul_div_succ _ hi
  have h3 : i * ((T + i - 1) / i + 1) = (T + i - 1) / i * i + i := by ring
  constructor
  · omega
  · intro j hj
    have h4 : (j + 1) * i ≤ (T + i - 1) / i * i := Nat.mul_le_mul_right _ hj
    have h5 : (j + 1) * i = j * i + i := by ring
    omega

theorem readLoop_paused (e : FsError) (he : e.code = DOES_NOT_EXIST_ERROR) (r : Reader)
    (hp : r.paused = true) (h : hasTimedOut r = false) (fuel : Nat) :
    readLoop e (fuel + 1) r = handleError e r ∧ Effect.nofile e ∉ (handleError e r).2 := by
  constructor
  · cases hr : r.readable <;>
      simp [readLoop, handleError_enoent e r he h, hr, readFromOffsetUntilEof, hp,
        Effect.isRetryRead, Effect.isCreateReadStream]
  · rw [handleError_enoent e r he h]
    split_ifs <;> simp

theorem sizingLoop_env_interval (now : Int) (f : Nat) :
    sizingLoop now { code := "ENOENT".toList } (f + 3)
      (newTailReadStream { emptyEnv with TRS_READ_INTERVAL := some "1000".toList }
        { interval := none, timeout := none, watchinterval := none,
          tailheadsize := none, tailheadage := none }) =
      (⟨false, none, 0, .str "1000".toList, 3600000, 1000, 8192, 60000,
        .str "010001000".toList, false, false, false, false⟩,
        [.stat, .retrySize (.str "1000".toList), .stat, .retrySize (.str "1000".toList),
         .stat, .nofile { code := "ENOENT".toList }]) := by
  have f0 : newTailReadStream { emptyEnv with TRS_READ_INTERVAL := some "1000".toList }
      { interval := none, timeout := none, watchinterval := none,
        tailheadsize := none, tailheadage := none } =
      ⟨true, none, 0, .str "1000".toList, 3600000, 1000, 8192, 60000, 0,
        false, false, false, false⟩ := by decide
  have t1 : hasTimedOut
      ⟨true, none, 0, .str "1000".toList, 3600000, 1000, 8192, 60000, 0,
        false, false, false, false⟩ = false := by decide
  have f1 : getFileSizeAndReadUntilEofCallback now (.error { code := "ENOENT".toList })
      ⟨true, none, 0, .str "1000".toList, 3600000, 1000, 8192, 60000, 0,
        false, false, false, false⟩ =
      (⟨false, none, 0, .str "1000".toList, 3600000, 1000, 8192, 60000,
        .str "01000".toList, false, false, false, false⟩,
        [.retrySize (.str "1000".toList)]) := by
    rw [sizing_retry now { code := "ENOENT".toList } _ rfl t1]
    decide
  have t2 : hasTimedOut
      ⟨false, none, 0, .str "1000".toList, 3600000, 1000, 8192, 60000,
        .str "01000".toList, false, false, false, false⟩ = false := by
    show Scalar.ge (.str "01000".toList) (.num 3600000) = false
    rw [Scalar.ge_str_num _ _ (by decide)]
    decide
  have f2 : getFileSizeAndReadUntilEofCallback now (.error { code := "ENOENT".toList })
      ⟨false, none, 0, .str "1000".toList, 3600000, 1000, 8192, 60000,
        .str "01000".toList, false, false, false, false⟩ =
      (⟨false, none, 0, .str "1000".toList, 3600000, 1000, 8192, 60000,
        .str "010001000".toList, false, false, false, false⟩,
        [.retrySize (.str "1000".toList)]) := by
    rw [sizing_retry now { code := "ENOENT".toList } _ rfl t2]
    decide
  have t3 : hasTimedOut
      ⟨false, none, 0, .str "1000".toList, 3600000, 1000, 8192, 60000,
        .str "010001000".toList, false, false, false, false⟩ = true := by
    show Scalar.ge (.str "010001000".toList) (.num 3600000) = true
    rw [Scalar.ge_str_num _ _ (by decide)]
    decide
  have f3 := sizing_give_up now { code := "ENOENT".toList } _ t3
  rw [f0]
  simp only [sizingLoop, getFileSizeAndReadUntilEof, f1, f2, f3, List.any_cons,
    List.any_nil, Effect.isRetrySize, Bool.or_false, if_true, Bool.false_eq_true, if_false]
  rfl

/-- Counterexample for C20. The reader of `tail(path, true)` is paused while its
first read is in flight, and the file is not found: the read error schedules the
retry, the retry opens no read on a paused reader, and no `nofile` follows,
whatever the number of attempts allowed. And with `TRS_READ_INTERVAL=1000` in
the environment the interval is a string: the sizing loop of a new reader gives
up after two retries, with the idle accumulator `010001000`, while
`ceil(3600000 / 1000)` is 3600. -/
theorem never_found_counterexample :
    ((pause (tail emptyEnv (.flag true)
      { interval := none, timeout := none, watchinterval := none,
        tailheadsize := none, tailheadage := none }).1).state.idle = 0 ∧
    (readLoop { code := "ENOENT".toList } 3601
      (pause (tail emptyEnv (.flag true)
        { interval := none, timeout := none, watchinterval := none,
          tailheadsize := none, tailheadage := none }).1).state).2 =
      [.rename, .retryRead 1000] ∧
    ¬ ∃ fuel, Effect.nofile { code := "ENOENT".toList } ∈
      (readLoop { code := "ENOENT".toList } fuel
        (pause (tail emptyEnv (.flag true)
          { interval := none, timeout := none, watchinterval := none,
            tailheadsize := none, tailheadage := none }).1).state).2) ∧
    ((sizingLoop 0 { code := "ENOENT".toList } 3601
      (newTailReadStream { emptyEnv with TRS_READ_INTERVAL := some "1000".toList }
        { interval := none, timeout := none, watchinterval := none,
          tailheadsize := none, tailheadage := none })).2 =
      [.stat, .retrySize (.str "1000".toList), .stat, .retrySize (.str "1000".toList),
       .stat, .nofile { code := "ENOENT".toList }] ∧
    (sizingLoop 0 { code := "ENOENT".toList } 3601
      (newTailReadStream { emptyEnv with TRS_READ_INTERVAL := some "1000".toList }
        { interval := none, timeout := none, watchinterval := none,
          tailheadsize := none, tailheadage := none })).1.idle = .str "010001000".toList ∧
    (3600000 + 1000 - 1) / 1000 = 3600) := by
  have hp : (pause (tail emptyEnv (.flag true)
      { interval := none, timeout := none, watchinterval := none,
        tailheadsize := none, tailheadage := none }).1).state.paused = true := by decide
  have ht : hasTimedOut (pause (tail emptyEnv (.flag true)
      { interval := none, timeout := none, watchinterval := none,
        tailheadsize := none, tailheadage := none }).1).state = false := by decide
  refine ⟨⟨by decide, ?_, ?_⟩, ?_, ?_, by decide⟩
  · rw [(readLoop_paused { code := "ENOENT".toList } rfl _ hp ht 3600).1]
    decide
  · rintro ⟨fuel, hmem⟩
    cases fuel with
    | zero => simp [readLoop] at hmem
    | succ f =>
      rw [(readLoop_paused { code := "ENOENT".toList } rfl _ hp ht f).1] at hmem
      exact (readLoop_paused { code := "ENOENT".toList } rfl _ hp ht f).2 hmem
  · rw [sizingLoop_env_interval 0 3598]
  · rw [sizingLoop_env_interval 0 3598]

/-- C20 (amended): a reader whose read interval and timeout are the numbers
`i > 0` and `T`, that starts with idle accumulator 0 and whose file is never
found. With `n = ceil(T / i)`: the sizing loop makes `n` retries, each adding `i`
to the idle accumulator, and at the next attempt, the first with `idle >= T`,
emits `nofile` and sets no timer; the read loop of a reader that is not paused
does the same with `_handleError`. More fuel changes nothing: the loops have
ended, with exactly one `nofile`. -/
theorem never_found_gives_up_once (now : Int) (e : FsError) (r : Reader) (fuel i T : Nat)
    (he : e.code = DOES_NOT_EXIST_ERROR) (hi : 0 < i)
    (hint : r.interval = .num i) (hto : r.timeout = .num T) (hidle : r.idle = .num 0)
    (hfuel : (T + i - 1) / i + 1 ≤ fuel) :
    T ≤ (T + i - 1) / i * i ∧
    (∀ j, j < (T + i - 1) / i → j * i < T) ∧
    sizingLoop now e fuel r =
      ({ r with readable := false, idle := .num ((T + i - 1) / i * i) },
        (List.replicate ((T + i - 1) / i)
            [Effect.stat, Effect.retrySize (.num i)]).flatten ++ [.stat, .nofile e]) ∧
    (sizingLoop now e fuel r).2.count (.nofile e) = 1 ∧
    (r.paused = false →
      (readLoop e fuel r).1.idle = .num ((T + i - 1) / i * i) ∧
      (readLoop e fuel r).2.count (.nofile e) = 1 ∧
      (readLoop e fuel r).2.getLast? = some (.nofile e) ∧
      (readLoop e fuel r).2.count (.retryRead (.num i)) = (T + i - 1) / i ∧
      readLoop e fuel r = readLoop e ((T + i - 1) / i + 1) r) := by
  obtain ⟨c1, c2⟩ := ceil_div_spec T i hi
  have hge : T ≤ 0 + (T + i - 1) / i * i := by omega
  have hlt : ∀ j, j < (T + i - 1) / i → 0 + j * i < T := by
    intro j hj
    have := c2 j hj
    omega
  have hs := sizingLoop_spec now e he i T _ fuel 0 r hfuel hint hto hidle hge hlt
  simp only [Nat.zero_add] at hs
  refine ⟨c1, c2, hs, ?_, ?_⟩
  · rw [hs]
    simp only [List.count_append]
    have hz : ∀ k : Nat, (List.replicate k [Effect.stat, Effect.retrySize (.num i)]).flatten.count
        (.nofile e) = 0 := by
      intro k
      induction k with
      | zero => simp
      | succ k ih => simp [List.replicate_succ, ih]
    rw [hz]
    simp
  · intro hp
    have hr := readLoop_spec e he i T _ fuel 0 r hfuel hp hint hto hidle hge hlt
    simp only [Nat.zero_add] at hr
    exact hr

/-- Witness for C20: interval 1000 ms and timeout 2500 ms give three retries,
then `nofile`, in the sizing loop and in the read loop. -/
theorem never_found_gives_up_once_witness :
    sizingLoop 0 { code := "ENOENT".toList } 10
      { readable := true, stream := none, offset := 0, interval := 1000,
        timeout := 2500, watchinterval := 1000, tailheadsize := 8192,
        tailheadage := 60000, idle := 0, reading := false, paused := false,
        ended := false, watching := false } =
      ({ readable := false, stream := none, offset := 0, interval := 1000,
         timeout := 2500, watchinterval := 1000, tailheadsize := 8192,
         tailheadage := 60000, idle := 3000, reading := false, paused := false,
         ended := false, watching := false },
        [.stat, .retrySize 1000, .stat, .retrySize 1000, .stat, .retrySize 1000,
         .stat, .nofile { code := "ENOENT".toList }]) ∧
    (readLoop { code := "ENOENT".toList } 10
      { readable := true, stream := none, offset := 0, interval := 1000,
        timeout := 2500, watchinterval := 1000, tailheadsize := 8192,
        tailheadage := 60000, idle := 0, reading := false, paused := false,
        ended := false, watching := false }).2.count
        (.nofile { code := "ENOENT".toList }) = 1 :=
  ⟨(never_found_gives_up_once 0 { code := "ENOENT".toList }
      { readable := true, stream := none, offset := 0, interval := 1000,
        timeout := 2500, watchinterval := 1000, tailheadsize := 8192,
        tailheadage := 60000, idle := 0, reading := false, paused := false,
        ended := false, watching := false } 10 1000 2500 rfl (by decide) rfl rfl rfl
      (by decide)).2.2.1,
   ((never_found_gives_up_once 0 { code := "ENOENT".toList }
      { readable := true, stream := none, offset := 0, interval := 1000,
        timeout := 2500, watchinterval := 1000, tailheadsize := 8192,
        tailheadage := 60000, idle := 0, reading := false, paused := false,
        ended := false, watching := false } 10 1000 2500 rfl (by decide) rfl rfl rfl
      (by decide)).2.2.2.2 rfl).2.1⟩

/-! ### The guard of `_readFromOffsetUntilEof` -/

/-- Counterexample for C21: with a read in flight at offset 700,
`_readFromOffsetUntilEof(0)` opens no stream but sets the tracked offset to 0. -/
theorem readFromOffsetUntilEof_guard_counterexample :
    readFromOffsetUntilEof (some 0)
      { readable := true, stream := some { start := 0, paused := false }, offset := 700,
        interval := 1000, timeout := 3600000, watchinterval := 1000, tailheadsize := 8192,
        tailheadage := 60000, idle := 0, reading := true, paused := false,
        ended := false, watching := true } =
      ({ readable := true, stream := some { start := 0, paused := false }, offset := 0,
         interval := 1000, timeout := 3600000, watchinterval := 1000, tailheadsize := 8192,
         tailheadage := 60000, idle := 0, reading := true, paused := false,
         ended := false, watching := true }, []) := by
  decide

/-- C21 (amended): for every reader state in which a read is in flight or the
reader is paused, `_readFromOffsetUntilEof` raises no error and opens no
stream. Called without an offset it leaves the whole state unchanged; called
with a numeric offset `n` it sets the tracked offset to `n` and changes nothing
else. For every reader state, a stream is opened only when no read is in flight
and the reader is not paused, and the reading flag is set from then on; so at
most one read is in flight. -/
theorem readFromOffsetUntilEof_guard (r : Reader) (offset : Option Nat)
    (h : r.reading = true ∨ r.paused = true) :
    (readFromOffsetUntilEof offset r).2 = [] ∧
    readFromOffsetUntilEof none r = (r, []) ∧
    (∀ n, readFromOffsetUntilEof (some n) r = ({ r with offset := n }, [])) ∧
    (∀ (x : Reader) (arg : Option Nat),
      (readFromOffsetUntilEof arg x).2 = [] ∨
      (x.reading = false ∧ x.paused = false ∧
        (readFromOffsetUntilEof arg x).1.reading = true ∧
        (readFromOffsetUntilEof arg x).2 =
          [.createReadStream (readFromOffsetUntilEof arg x).1.offset])) := by
  have hg : (r.paused || r.reading) = true := by
    rcases h with h | h <;> simp [h]
  refine ⟨?_, ?_, ?_, ?_⟩
  · cases offset <;> simp [readFromOffsetUntilEof, hg]
  · simp [readFromOffsetUntilEof, hg]
  · intro n
    simp [readFromOffsetUntilEof, hg]
  · intro x arg
    cases hp : x.paused <;> cases hr : x.reading <;> cases arg <;>
      simp [readFromOffsetUntilEof, hp, hr]

/-- Witness for C21: the retry timer fires while a read is in flight. -/
theorem readFromOffsetUntilEof_guard_witness :
    readFromOffsetUntilEof none
      { readable := true, stream := some { start := 0, paused := false }, offset := 700,
        interval := 1000, timeout := 3600000, watchinterval := 1000, tailheadsize := 8192,
        tailheadage := 60000, idle := 0, reading := true, paused := false,
        ended := false, watching := true } =
      ({ readable := true, stream := some { start := 0, paused := false }, offset := 700,
         interval := 1000, timeout := 3600000, watchinterval := 1000, tailheadsize := 8192,
         tailheadage := 60000, idle := 0, reading := true, paused := false,
         ended := false, watching := true }, []) :=
  (readFromOffsetUntilEof_guard
      { readable := true, stream := some { start := 0, paused := false }, offset := 700,
        interval := 1000, timeout := 3600000, watchinterval := 1000, tailheadsize := 8192,
        tailheadage := 60000, idle := 0, reading := true, paused := false,
        ended := false, watching := true } none (Or.inl rfl)).2.1


end LogdnaAgent
